import Mathlib

/-!
Shallow embedding of the casm NASM code generator (src/unnamed/part_009,
second revision: the one with the `FunctionCall` call-edge table), together
with `connect_prev_pointers` from src/unnamed/part_005.

Modelling conventions:
* The C `ASTNode` (type, value, left, right, next, prev) becomes the
  inductive `ASTNode` below; `NULL` pointers become the `null` constructor.
* `prev` pointers are not stored: `generate_nasm` always calls
  `connect_prev_pointers` first, which makes every statement's `prev` chain
  exactly the list of its earlier siblings (nearest first).  The block
  walker therefore threads that list (`prevs`) explicitly.
* Global mutable state (`string_counter`, `string_infos`/`string_info_count`,
  `function_calls`/`function_call_count`) is threaded as explicit values;
  `CGState` bundles them where a whole-pass signature needs all three.
* Output written with `fprintf(fp, ...)` is accumulated in an `out : String`
  component, diagnostics written to `stderr` in an `err : String` component.
* `fprintf` of a `NULL` string argument (reachable only when the 100-entry
  string table overflows) is modelled as the glibc rendering `(null)`; the
  subsequent `strdup(NULL)` in the C source is undefined behaviour, modelled
  the same way.  No theorem below relies on that regime.
-/

namespace Casm

/-- Token kinds from lexer.h (the revision that includes
`TOKEN_JUMP_NOT_EQUAL`), in declaration order; the order fixes the numeric
values printed by the `%d` diagnostic in `generate_block`. -/
inductive TokenType where
  | TOKEN_MOVE
  | TOKEN_ADD
  | TOKEN_SUB
  | TOKEN_COMPARE
  | TOKEN_JUMP
  | TOKEN_JUMP_EQUAL
  | TOKEN_JUMP_NOT_EQUAL
  | TOKEN_RETURN
  | TOKEN_CALL
  | TOKEN_SYS_CALL
  | TOKEN_LABEL_KW
  | TOKEN_LABEL
  | TOKEN_IDENTIFIER
  | TOKEN_NUMBER
  | TOKEN_STRING
  | TOKEN_STRLEN
  | TOKEN_LPAREN
  | TOKEN_RPAREN
  | TOKEN_LBRACE
  | TOKEN_RBRACE
  | TOKEN_COMMA
  | TOKEN_SEMICOLON
  | TOKEN_UNKNOWN
  deriving DecidableEq, Repr

/-- Numeric value of a token kind, per the C enum declaration order. -/
def tokenTypeCode : TokenType → Nat
  | .TOKEN_MOVE => 0
  | .TOKEN_ADD => 1
  | .TOKEN_SUB => 2
  | .TOKEN_COMPARE => 3
  | .TOKEN_JUMP => 4
  | .TOKEN_JUMP_EQUAL => 5
  | .TOKEN_JUMP_NOT_EQUAL => 6
  | .TOKEN_RETURN => 7
  | .TOKEN_CALL => 8
  | .TOKEN_SYS_CALL => 9
  | .TOKEN_LABEL_KW => 10
  | .TOKEN_LABEL => 11
  | .TOKEN_IDENTIFIER => 12
  | .TOKEN_NUMBER => 13
  | .TOKEN_STRING => 14
  | .TOKEN_STRLEN => 15
  | .TOKEN_LPAREN => 16
  | .TOKEN_RPAREN => 17
  | .TOKEN_LBRACE => 18
  | .TOKEN_RBRACE => 19
  | .TOKEN_COMMA => 20
  | .TOKEN_SEMICOLON => 21
  | .TOKEN_UNKNOWN => 22

/-- The C `ASTNode` struct: `type`, `value`, owned `left`/`right` children
and the owned `next` sibling chain.  `null` stands for the `NULL` pointer. -/
inductive ASTNode where
  | null
  | mk (ttype : TokenType) (value : String) (left right next : ASTNode)
  deriving DecidableEq, Repr

/-- `node->value`, for nodes the C code dereferences (never `NULL` there). -/
def node_value : ASTNode → String
  | .null => ""
  | .mk _ v _ _ _ => v

/-- One entry of the `string_infos` table: `{label, length, string_value}`. -/
structure StrInfo where
  label : String
  length : Nat
  string_value : String
  deriving DecidableEq, Repr

/-- One entry of the `function_calls` table:
`{caller_func, callee_func, return_label, used}`. -/
structure FunctionCall where
  caller_func : String
  callee_func : String
  return_label : String
  used : Bool
  deriving DecidableEq, Repr

/-- The three run-scoped globals of the generator. -/
structure CGState where
  string_counter : Nat
  string_infos : List StrInfo
  function_calls : List FunctionCall
  deriving DecidableEq, Repr

def MAX_STRINGS : Nat := 100

def MAX_CALLS : Nat := 100

/-- `translate_register`: the fixed seven-entry logical-to-physical register
map; any other operand text passes through unchanged. -/
def translate_register (reg : String) : String :=
  if reg = "&1" then "eax"
  else if reg = "&2" then "ebx"
  else if reg = "&3" then "ecx"
  else if reg = "&4" then "edx"
  else if reg = "&5" then "esi"
  else if reg = "&6" then "edi"
  else if reg = "&7" then "ebp"
  else reg

/-- The scanning loop of `calculate_string_length` over the characters
strictly between the quotes (index `1` to `len-2` in the C source).  A
backslash consumes the following character and contributes one byte; a
backslash that is the final middle character contributes nothing (the C
loop exits after the first increment). -/
def calc_middle_len : List Char → Nat
  | [] => 0
  | c :: rest =>
    if c = '\\' then
      match rest with
      | [] => 0
      | _ :: rest2 => 1 + calc_middle_len rest2
    else 1 + calc_middle_len rest

/-- `calculate_string_length`: for a text of length at least 2 that starts
and ends with a double quote, the collapsed length of the middle; otherwise
the raw length. -/
def calculate_string_length (s : String) : Nat :=
  let cs := s.data
  if 2 ≤ cs.length ∧ cs.head? = some '"' ∧ cs.getLast? = some '"' then
    calc_middle_len ((cs.drop 1).dropLast)
  else cs.length

/-- The quotedness test repeated inline in `collect_strings`
(`len >= 2 && str[0] == quote && str[len-1] == quote`). -/
def isQuoted (s : String) : Bool :=
  decide (2 ≤ s.data.length) && (s.data.head? == some '"') && (s.data.getLast? == some '"')

/-- Result of `add_string_info`: the fresh label (`none` models the `NULL`
returned on table overflow), the stderr text, and the updated counter and
table. -/
structure AddStrRes where
  label : Option String
  err : String
  counter : Nat
  infos : List StrInfo
  deriving DecidableEq, Repr

/-- `add_string_info`: refuse when the table already holds `MAX_STRINGS`
entries, else assign label `str_<string_counter>`, record the computed
length and the literal text, and append. -/
def add_string_info (string_value : String) (counter : Nat) (infos : List StrInfo) : AddStrRes :=
  if MAX_STRINGS ≤ infos.length then
    ⟨none, "Too many strings in the program!\n", counter, infos⟩
  else
    let label := "str_" ++ toString counter
    ⟨some label, "", counter + 1,
      infos ++ [⟨label, calculate_string_length string_value, string_value⟩]⟩

/-- Rendering of a possibly-`NULL` label in a `%s` conversion. -/
def fmt_label : Option String → String
  | some l => l
  | none => "(null)"

/-- `find_string_length`: length of the first table entry with the given
label, `0` when absent. -/
def find_string_length (infos : List StrInfo) (label : String) : Nat :=
  match infos with
  | [] => 0
  | e :: rest => if e.label = label then e.length else find_string_length rest label

/-- Result of `process_string_literal`. -/
structure StrLitRes where
  label : Option String
  out : String
  err : String
  counter : Nat
  infos : List StrInfo
  deriving DecidableEq, Repr

/-- `process_string_literal`: intern via `add_string_info` and emit the
data declaration line `    <label> db <literal>, 0`. -/
def process_string_literal (string_value : String) (counter : Nat) (infos : List StrInfo) : StrLitRes :=
  let a := add_string_info string_value counter infos
  ⟨a.label, "    " ++ fmt_label a.label ++ " db " ++ string_value ++ ", 0\n",
    a.err, a.counter, a.infos⟩

/-- The backward search of `handle_move`: walk the `prev` chain (here the
list of earlier siblings, nearest first) for the first `Move` statement
whose source operand is a `String` or `Label` node, returning that
operand's text. -/
def find_prev_string_label : List ASTNode → Option String
  | [] => none
  | .null :: rest => find_prev_string_label rest
  | .mk t _ _ r _ :: rest =>
    if t = .TOKEN_MOVE then
      match r with
      | .mk rt rv _ _ _ =>
        if rt = .TOKEN_STRING ∨ rt = .TOKEN_LABEL then some rv
        else find_prev_string_label rest
      | .null => find_prev_string_label rest
    else find_prev_string_label rest

/-- Result of `handle_move` (it touches only the string globals). -/
structure MoveRes where
  out : String
  err : String
  counter : Nat
  infos : List StrInfo
  deriving DecidableEq, Repr

/-- `handle_move`: early return on a missing operand; a `StrLen` source
resolves through the backward search and `find_string_length` (warning and
length `0` when the search fails); a `Number` source is emitted verbatim;
a `String` source is interned and its label moved; anything else is
register-translated. -/
def handle_move (left right : ASTNode) (prevs : List ASTNode) (counter : Nat)
    (infos : List StrInfo) : MoveRes :=
  match left, right with
  | .null, _ => ⟨"", "", counter, infos⟩
  | _, .null => ⟨"", "", counter, infos⟩
  | .mk _ lv _ _ _, .mk rt rv _ _ _ =>
    if rt = .TOKEN_STRLEN then
      match find_prev_string_label prevs with
      | some lbl =>
        ⟨"    mov " ++ translate_register lv ++ ", " ++
          toString (find_string_length infos lbl) ++ "\n", "", counter, infos⟩
      | none =>
        ⟨"    mov " ++ translate_register lv ++ ", 0\n",
          "Warning: No previous string found for strlen\n", counter, infos⟩
    else if rt = .TOKEN_NUMBER then
      ⟨"    mov " ++ translate_register lv ++ ", " ++ rv ++ "\n", "", counter, infos⟩
    else if rt = .TOKEN_STRING then
      let r := process_string_literal rv counter infos
      ⟨r.out ++ "    mov " ++ translate_register lv ++ ", " ++ fmt_label r.label ++ "\n",
        r.err, r.counter, r.infos⟩
    else
      ⟨"    mov " ++ translate_register lv ++ ", " ++ translate_register rv ++ "\n",
        "", counter, infos⟩

/-- A `param_array` slot: the `type` and `value` fields the syscall code
reads and writes (children and chaining are untouched by it). -/
structure Param where
  ptype : TokenType
  pvalue : String
  deriving DecidableEq, Repr

def default_param : Param := ⟨.TOKEN_UNKNOWN, ""⟩

/-- Result of the parameter-collection loop of
`process_syscall_parameters`. -/
structure ParamsCollect where
  arr : List Param
  spi : Option Nat
  out : String
  err : String
  counter : Nat
  infos : List StrInfo
  deriving DecidableEq, Repr

/-- The collection loop (`while (current && param_count < 7)`): record up to
7 parameters; every `String` parameter is interned on the spot, its node
rewritten to a `Label` carrying the fresh label, and `string_param_index`
(`spi`, `none` for the C value `-1`) set to its index; parameters past the
seventh are not visited. -/
def collect_params : ASTNode → Nat → Nat → List StrInfo → ParamsCollect
  | .null, _, counter, infos => ⟨[], none, "", "", counter, infos⟩
  | .mk t v _ _ nx, cnt, counter, infos =>
    if cnt < 7 then
      if t = .TOKEN_STRING then
        let r := process_string_literal v counter infos
        let rest := collect_params nx (cnt + 1) r.counter r.infos
        ⟨⟨.TOKEN_LABEL, fmt_label r.label⟩ :: rest.arr,
          (match rest.spi with | some j => some j | none => some cnt),
          r.out ++ rest.out, r.err ++ rest.err, rest.counter, rest.infos⟩
      else
        let rest := collect_params nx (cnt + 1) counter infos
        ⟨⟨t, v⟩ :: rest.arr, rest.spi, rest.out, rest.err, rest.counter, rest.infos⟩
    else ⟨[], none, "", "", counter, infos⟩

/-- Whether a parameter value passes `strncmp(value, "str_", 4) == 0`. -/
def has_str_prefix (v : String) : Bool :=
  match v.data with
  | 's' :: 't' :: 'r' :: '_' :: _ => true
  | _ => false

/-- The inner `j` scan of the `StrLen` resolution loop: walk all slots in
ascending order, remembering the index of every `Label` slot whose value
starts with `str_`; the last match wins. -/
def scan_go : List Param → Nat → Option Nat → Option Nat
  | [], _, acc => acc
  | p :: rest, j, acc =>
    scan_go rest (j + 1)
      (if p.ptype = .TOKEN_LABEL ∧ has_str_prefix p.pvalue then some j else acc)

def scan_str_label (arr : List Param) : Option Nat := scan_go arr 0 none

/-- Result of the `StrLen` resolution loop. -/
structure ResolveRes where
  arr : List Param
  spi : Option Nat
  err : String
  deriving DecidableEq, Repr

/-- The `StrLen` resolution loop of `process_syscall_parameters`: for each
slot `i` holding a `StrLen`, rescan all slots for `str_`-labelled entries
(the last one found overwrites `string_param_index`); when an index is
available substitute that entry's recorded length as a `Number`, otherwise
warn and substitute `0`. -/
def resolve_go (infos : List StrInfo) : Nat → Nat → List Param → Option Nat → String → ResolveRes
  | 0, _, arr, spi, err => ⟨arr, spi, err⟩
  | fuel + 1, i, arr, spi, err =>
    match arr.get? i with
    | none => resolve_go infos fuel (i + 1) arr spi err
    | some p =>
      if p.ptype = .TOKEN_STRLEN then
        let spi2 := match scan_str_label arr with | some j => some j | none => spi
        match spi2 with
        | some j =>
          let len := find_string_length infos ((arr.getD j default_param).pvalue)
          resolve_go infos fuel (i + 1) (arr.set i ⟨.TOKEN_NUMBER, toString len⟩) spi2 err
        | none =>
          resolve_go infos fuel (i + 1) (arr.set i ⟨.TOKEN_NUMBER, "0"⟩) spi2
            (err ++ "Warning: No string parameter found for syscall with strlen\n")
      else resolve_go infos fuel (i + 1) arr spi err

/-- `REG_MAP(index)`: the fixed register sequence, `invalid_register`
outside the first seven slots. -/
def reg_map_get (i : Nat) : String :=
  (["eax", "ebx", "ecx", "edx", "esi", "edi", "ebp"]).getD i "invalid_register"

/-- The marshalling loop: one move per slot into the fixed register
sequence; `Number` and `Label` values verbatim, anything else
register-translated. -/
def marshal_params : List Param → Nat → String
  | [], _ => ""
  | p :: rest, i =>
    (if p.ptype = .TOKEN_NUMBER then
      "    mov " ++ reg_map_get i ++ ", " ++ p.pvalue ++ "\n"
    else if p.ptype = .TOKEN_LABEL then
      "    mov " ++ reg_map_get i ++ ", " ++ p.pvalue ++ "\n"
    else
      "    mov " ++ reg_map_get i ++ ", " ++ translate_register p.pvalue ++ "\n")
      ++ marshal_params rest (i + 1)

/-- Write the (type, value) mutations of the first slots back into the
parameter chain, leaving children and the tail of the chain intact: this is
the in-place pointer mutation of `param_array[i]`. -/
def write_params : ASTNode → List Param → ASTNode
  | chain, [] => chain
  | .null, _ => .null
  | .mk _ _ l r nx, p :: rest => .mk p.ptype p.pvalue l r (write_params nx rest)

/-- Result of `process_syscall_parameters`: emitted text, stderr text, the
mutated parameter chain, and the updated string globals. -/
structure SysRes where
  out : String
  err : String
  params : ASTNode
  counter : Nat
  infos : List StrInfo
  deriving DecidableEq, Repr

/-- `process_syscall_parameters`: nothing at all is emitted for an empty
parameter chain; otherwise collect (at most 7), resolve `StrLen` slots,
marshal into registers and emit the interrupt. -/
def process_syscall_parameters (params : ASTNode) (counter : Nat) (infos : List StrInfo) : SysRes :=
  match params with
  | .null => ⟨"", "", .null, counter, infos⟩
  | .mk t v l r nx =>
    let chain : ASTNode := .mk t v l r nx
    let c := collect_params chain 0 counter infos
    let rr := resolve_go c.infos c.arr.length 0 c.arr c.spi ""
    ⟨c.out ++ marshal_params rr.arr 0 ++ "    int 0x80\n",
      c.err ++ rr.err,
      write_params chain rr.arr, c.counter, c.infos⟩

/-- The linear search at the head of `register_function_call`, with the
running index made explicit. -/
def find_call_index : List FunctionCall → String → String → Nat → Option Nat
  | [], _, _, _ => none
  | e :: rest, caller, callee, i =>
    if e.caller_func = caller ∧ e.callee_func = callee then some i
    else find_call_index rest caller callee (i + 1)

/-- Result of `register_function_call`: the table index (`none` models the
C return value `-1`), stderr text and the updated table. -/
structure RegRes where
  index : Option Nat
  err : String
  calls : List FunctionCall
  deriving DecidableEq, Repr

/-- `register_function_call`: return the index of an existing
(caller, callee) record; otherwise refuse when the table is full, else
append a fresh record whose return label is
`__backto_<caller>_<function_call_count>`. -/
def register_function_call (caller_func callee_func : String) (calls : List FunctionCall) : RegRes :=
  match find_call_index calls caller_func callee_func 0 with
  | some i => ⟨some i, "", calls⟩
  | none =>
    if MAX_CALLS ≤ calls.length then
      ⟨none, "Too many function calls!\n", calls⟩
    else
      ⟨some calls.length, "",
        calls ++ [⟨caller_func, callee_func,
          "__backto_" ++ caller_func ++ "_" ++ toString calls.length, false⟩]⟩

def default_call : FunctionCall := ⟨"", "", "", false⟩

/-- Result of `generate_return_label`. -/
structure RetLblRes where
  label : String
  err : String
  calls : List FunctionCall
  deriving DecidableEq, Repr

/-- `generate_return_label`: register (or find) the edge and hand back its
return label, `__error_label` when registration failed. -/
def generate_return_label (caller_func callee_func : String) (calls : List FunctionCall) : RetLblRes :=
  let r := register_function_call caller_func callee_func calls
  match r.index with
  | none => ⟨"__error_label", r.err, r.calls⟩
  | some i => ⟨(r.calls.getD i default_call).return_label, r.err, r.calls⟩

/-- `GENERATE_BINARY_OP`: destination register-translated; a numeric source
emitted verbatim, otherwise register-translated. -/
def generate_binary_op (op : String) (left right : ASTNode) : String :=
  match left, right with
  | .mk _ lv _ _ _, .mk rt rv _ _ _ =>
    if rt = .TOKEN_NUMBER then
      "    " ++ op ++ " " ++ translate_register lv ++ ", " ++ rv ++ "\n"
    else
      "    " ++ op ++ " " ++ translate_register lv ++ ", " ++ translate_register rv ++ "\n"
  | _, _ => ""

/-- Statement kinds carried by a `case` label in `generate_block`'s switch;
everything else falls to the `default` diagnostic. -/
def is_recognized_stmt : TokenType → Bool
  | .TOKEN_MOVE => true
  | .TOKEN_ADD => true
  | .TOKEN_SUB => true
  | .TOKEN_COMPARE => true
  | .TOKEN_JUMP => true
  | .TOKEN_JUMP_NOT_EQUAL => true
  | .TOKEN_JUMP_EQUAL => true
  | .TOKEN_RETURN => true
  | .TOKEN_CALL => true
  | .TOKEN_SYS_CALL => true
  | _ => false

/-- Result of a statement-chain or function-chain walk. -/
structure BlockRes where
  out : String
  err : String
  state : CGState
  deriving DecidableEq, Repr

/-- The statement loop of `generate_block`, with the `prev` chain of the
current statement passed as the list `prevs` (nearest sibling first), as
established by `connect_prev_pointers`. -/
def generate_stmts (func_name : String) : ASTNode → List ASTNode → CGState → BlockRes
  | .null, _, st => ⟨"", "", st⟩
  | .mk t v l r nx, prevs, st =>
    match t with
    | .TOKEN_MOVE =>
      let m := if l ≠ ASTNode.null ∧ r ≠ ASTNode.null then
          handle_move l r prevs st.string_counter st.string_infos
        else ⟨"", "", st.string_counter, st.string_infos⟩
      let st2 : CGState := ⟨m.counter, m.infos, st.function_calls⟩
      let rest := generate_stmts func_name nx (ASTNode.mk t v l r nx :: prevs) st2
      ⟨m.out ++ rest.out, m.err ++ rest.err, rest.state⟩
    | .TOKEN_ADD =>
      let o := if l ≠ ASTNode.null ∧ r ≠ ASTNode.null then generate_binary_op "add" l r else ""
      let rest := generate_stmts func_name nx (ASTNode.mk t v l r nx :: prevs) st
      ⟨o ++ rest.out, rest.err, rest.state⟩
    | .TOKEN_SUB =>
      let o := if l ≠ ASTNode.null ∧ r ≠ ASTNode.null then generate_binary_op "sub" l r else ""
      let rest := generate_stmts func_name nx (ASTNode.mk t v l r nx :: prevs) st
      ⟨o ++ rest.out, rest.err, rest.state⟩
    | .TOKEN_COMPARE =>
      let o := if l ≠ ASTNode.null ∧ r ≠ ASTNode.null then generate_binary_op "cmp" l r else ""
      let rest := generate_stmts func_name nx (ASTNode.mk t v l r nx :: prevs) st
      ⟨o ++ rest.out, rest.err, rest.state⟩
    | .TOKEN_JUMP =>
      let o := if l ≠ ASTNode.null then "    jmp " ++ node_value l ++ "\n" else ""
      let rest := generate_stmts func_name nx (ASTNode.mk t v l r nx :: prevs) st
      ⟨o ++ rest.out, rest.err, rest.state⟩
    | .TOKEN_JUMP_NOT_EQUAL =>
      let o := if l ≠ ASTNode.null then "    jne " ++ node_value l ++ "\n" else ""
      let rest := generate_stmts func_name nx (ASTNode.mk t v l r nx :: prevs) st
      ⟨o ++ rest.out, rest.err, rest.state⟩
    | .TOKEN_JUMP_EQUAL =>
      let o := if l ≠ ASTNode.null then "    je " ++ node_value l ++ "\n" else ""
      let rest := generate_stmts func_name nx (ASTNode.mk t v l r nx :: prevs) st
      ⟨o ++ rest.out, rest.err, rest.state⟩
    | .TOKEN_RETURN =>
      let o := if func_name = "main" then "    jmp _exit\n" else "    ret\n"
      let rest := generate_stmts func_name nx (ASTNode.mk t v l r nx :: prevs) st
      ⟨o ++ rest.out, rest.err, rest.state⟩
    | .TOKEN_CALL =>
      match l with
      | .null =>
        let rest := generate_stmts func_name nx (ASTNode.mk t v l r nx :: prevs) st
        ⟨"    int 0x80\n" ++ rest.out, rest.err, rest.state⟩
      | .mk lt lv ll lr lnx =>
        let g := generate_return_label func_name lv st.function_calls
        let st2 : CGState := ⟨st.string_counter, st.string_infos, g.calls⟩
        let rest := generate_stmts func_name nx
          (ASTNode.mk t v (ASTNode.mk lt lv ll lr lnx) r nx :: prevs) st2
        ⟨"    jmp " ++ lv ++ "\n" ++ g.label ++ ":\n" ++ rest.out, g.err ++ rest.err, rest.state⟩
    | .TOKEN_SYS_CALL =>
      let s := process_syscall_parameters l st.string_counter st.string_infos
      let st2 : CGState := ⟨s.counter, s.infos, st.function_calls⟩
      let rest := generate_stmts func_name nx (ASTNode.mk t v s.params r nx :: prevs) st2
      ⟨s.out ++ rest.out, s.err ++ rest.err, rest.state⟩
    | _ =>
      let rest := generate_stmts func_name nx (ASTNode.mk t v l r nx :: prevs) st
      ⟨rest.out, "Unknown AST node type: " ++ toString (tokenTypeCode t) ++ "\n" ++ rest.err,
        rest.state⟩

/-- `generate_block`: walk the block node's owned statement chain. -/
def generate_block (block : ASTNode) (func_name : String) (st : CGState) : BlockRes :=
  match block with
  | .null => ⟨"", "", st⟩
  | .mk _ _ l _ _ => generate_stmts func_name l [] st

/-- Result of the data-section walks of `collect_strings`. -/
structure InternRes where
  out : String
  err : String
  node : ASTNode
  counter : Nat
  infos : List StrInfo
  deriving DecidableEq, Repr

/-- The syscall-parameter walk of `collect_strings`: intern every quoted
`String` parameter, emit its declaration line, and rewrite the node in
place to a `Label`. -/
def intern_params : ASTNode → Nat → List StrInfo → InternRes
  | .null, counter, infos => ⟨"", "", .null, counter, infos⟩
  | .mk t v l r nx, counter, infos =>
    if t = .TOKEN_STRING ∧ isQuoted v then
      let a := add_string_info v counter infos
      let lbl := fmt_label a.label
      let rest := intern_params nx a.counter a.infos
      ⟨"    " ++ lbl ++ " db " ++ v ++ ", 0\n" ++ rest.out, a.err ++ rest.err,
        .mk .TOKEN_LABEL lbl l r rest.node, rest.counter, rest.infos⟩
    else
      let rest := intern_params nx counter infos
      ⟨rest.out, rest.err, .mk t v l r rest.node, rest.counter, rest.infos⟩

/-- The statement walk of `collect_strings`: a `Move` whose source is a
quoted `String` is interned and rewritten; a `SysCall` has its parameter
chain walked; every other statement is left alone. -/
def intern_stmts : ASTNode → Nat → List StrInfo → InternRes
  | .null, counter, infos => ⟨"", "", .null, counter, infos⟩
  | .mk t v l r nx, counter, infos =>
    match t, r with
    | .TOKEN_MOVE, .mk .TOKEN_STRING rv rl rr rnx =>
      if isQuoted rv then
        let a := add_string_info rv counter infos
        let lbl := fmt_label a.label
        let rest := intern_stmts nx a.counter a.infos
        ⟨"    " ++ lbl ++ " db " ++ rv ++ ", 0\n" ++ rest.out, a.err ++ rest.err,
          .mk t v l (.mk .TOKEN_LABEL lbl rl rr rnx) rest.node, rest.counter, rest.infos⟩
      else
        let rest := intern_stmts nx counter infos
        ⟨rest.out, rest.err, .mk t v l (.mk .TOKEN_STRING rv rl rr rnx) rest.node,
          rest.counter, rest.infos⟩
    | .TOKEN_SYS_CALL, _ =>
      let pp := intern_params l counter infos
      let rest := intern_stmts nx pp.counter pp.infos
      ⟨pp.out ++ rest.out, pp.err ++ rest.err, .mk t v pp.node r rest.node,
        rest.counter, rest.infos⟩
    | _, _ =>
      let rest := intern_stmts nx counter infos
      ⟨rest.out, rest.err, .mk t v l r rest.node, rest.counter, rest.infos⟩

/-- The top-level walk of `collect_strings`: only `Label` nodes whose left
child is a `Block` have their statement chains scanned. -/
def intern_tops : ASTNode → Nat → List StrInfo → InternRes
  | .null, counter, infos => ⟨"", "", .null, counter, infos⟩
  | .mk t v l r nx, counter, infos =>
    match t, l with
    | .TOKEN_LABEL, .mk .TOKEN_LBRACE bv bl br bnx =>
      let s := intern_stmts bl counter infos
      let rest := intern_tops nx s.counter s.infos
      ⟨s.out ++ rest.out, s.err ++ rest.err,
        .mk t v (.mk .TOKEN_LBRACE bv s.node br bnx) r rest.node, rest.counter, rest.infos⟩
    | _, _ =>
      let rest := intern_tops nx counter infos
      ⟨rest.out, rest.err, .mk t v l r rest.node, rest.counter, rest.infos⟩

/-- Result of `collect_strings`. -/
structure CollectRes where
  out : String
  err : String
  ast : ASTNode
  state : CGState
  deriving DecidableEq, Repr

/-- `collect_strings`: emit the data-section header, reset `string_counter`
and the string table, walk the program, and emit the closing blank line. -/
def collect_strings (ast : ASTNode) (st : CGState) : CollectRes :=
  let r := intern_tops ast 0 []
  ⟨"section .data\n" ++ r.out ++ "\n", r.err, r.node,
    ⟨r.counter, r.infos, st.function_calls⟩⟩

/-- The statement scan of the pre-registration pass: register an edge for
every `Call` statement that has a callee operand. -/
def register_calls_in_stmts (func_name : String) : ASTNode → List FunctionCall → String × List FunctionCall
  | .null, calls => ("", calls)
  | .mk t _ l _ nx, calls =>
    match t, l with
    | .TOKEN_CALL, .mk _ lv _ _ _ =>
      let r := register_function_call func_name lv calls
      let rest := register_calls_in_stmts func_name nx r.calls
      (r.err ++ rest.1, rest.2)
    | _, _ => register_calls_in_stmts func_name nx calls

/-- The top-level pre-registration pass of `generate_nasm`. -/
def register_calls_pass : ASTNode → List FunctionCall → String × List FunctionCall
  | .null, calls => ("", calls)
  | .mk t v l _ nx, calls =>
    match t, l with
    | .TOKEN_LABEL, .mk .TOKEN_LBRACE _ bl _ _ =>
      let r := register_calls_in_stmts v bl calls
      let rest := register_calls_pass nx r.2
      (r.1 ++ rest.1, rest.2)
    | _, _ => register_calls_pass nx calls

/-- The epilogue scan of `generate_nasm` (lines after the body emission):
find the first table entry whose callee is this function and whose `used`
flag is unset; return its label and the table with that entry consumed. -/
def consume_first : List FunctionCall → String → Option (String × List FunctionCall)
  | [], _ => none
  | e :: rest, name =>
    if e.callee_func = name ∧ e.used = false then
      some (e.return_label, ⟨e.caller_func, e.callee_func, e.return_label, true⟩ :: rest)
    else
      match consume_first rest name with
      | none => none
      | some (lbl, rest2) => some (lbl, e :: rest2)

/-- The function epilogue of `generate_nasm`: `main` jumps to the exit
stub; any other function jumps back through the first unconsumed incoming
edge, falling back to a plain `ret` when there is none. -/
def function_epilogue (name : String) (calls : List FunctionCall) : String × List FunctionCall :=
  if name = "main" then ("    jmp _exit\n", calls)
  else
    match consume_first calls name with
    | some (lbl, calls2) => ("    jmp " ++ lbl ++ "\n", calls2)
    | none => ("    ret\n", calls)

/-- The per-function emission loop of `generate_nasm`: label line, body (if
the left child is a `Block`), epilogue, blank separator. -/
def emit_functions : ASTNode → CGState → BlockRes
  | .null, st => ⟨"", "", st⟩
  | .mk t v l _ nx, st =>
    match t with
    | .TOKEN_LABEL =>
      let body :=
        match l with
        | .mk .TOKEN_LBRACE bv bl br bnx => generate_block (.mk .TOKEN_LBRACE bv bl br bnx) v st
        | _ => ⟨"", "", st⟩
      let ep := function_epilogue v body.state.function_calls
      let st2 : CGState := ⟨body.state.string_counter, body.state.string_infos, ep.2⟩
      let rest := emit_functions nx st2
      ⟨v ++ ":\n" ++ body.out ++ ep.1 ++ "\n" ++ rest.out, body.err ++ rest.err, rest.state⟩
    | _ => emit_functions nx st

/-- Whether a `main` function exists among the top-level declarations. -/
def has_main : ASTNode → Bool
  | .null => false
  | .mk t v _ _ nx => if t = .TOKEN_LABEL ∧ v = "main" then true else has_main nx

/-- `WRITE_EXIT_SECTION`. -/
def exit_section : String :=
  "_exit:\n" ++ "    mov eax, 1      ; exit system call\n" ++
  "    xor ebx, ebx    ; exit code 0\n" ++ "    int 0x80        ; call kernel\n\n"

/-- Result of a whole generation run: the file text, the stderr text, and
the global state left behind for a hypothetical next run. -/
structure NasmRes where
  out : String
  err : String
  state : CGState
  deriving DecidableEq, Repr

/-- `generate_nasm`: reset the call table, pre-register every call edge,
emit the data section (which resets the string table), the text header,
the exit stub, the optional `_start` trampoline, every function with its
epilogue, and the no-`main` fallback; finally release both tables.  The
`st0` argument is the incoming global state of the process; mirroring the
C resets, no component of the output may depend on it. -/
def generate_nasm (ast : ASTNode) (st0 : CGState) : NasmRes :=
  let reg := register_calls_pass ast []
  let col := collect_strings ast ⟨st0.string_counter, st0.string_infos, reg.2⟩
  let fm := has_main col.ast
  let header := "section .text\n" ++ "global _start\n\n" ++ exit_section
  let start_jmp := if fm then "_start:\n" ++ "    jmp main     ; Call the main function\n\n" else ""
  let fns := emit_functions col.ast col.state
  let tail := if fm then "" else
    "_start:\n" ++ "    ; No main function found, exiting directly\n" ++ "    jmp _exit\n"
  ⟨col.out ++ header ++ start_jmp ++ fns.out ++ tail,
    reg.1 ++ col.err ++ fns.err,
    ⟨fns.state.string_counter, [], []⟩⟩

/-! Specification-side definitions, used to state the claims in the spec's
own vocabulary and compare them with the embedded code. -/

/-- Pairwise distinctness of (caller, callee) pairs in the call-edge table:
at most one record per distinct pair. -/
def pair_unique (calls : List FunctionCall) : Prop :=
  ∀ i j, i < calls.length → j < calls.length →
    (calls.getD i default_call).caller_func = (calls.getD j default_call).caller_func →
    (calls.getD i default_call).callee_func = (calls.getD j default_call).callee_func →
    i = j

/-- Every record's return label is `__backto_<caller>_<edge-index>`, where
the edge index is the record's position in the table. -/
def labels_indexed (calls : List FunctionCall) : Prop :=
  ∀ i, i < calls.length →
    (calls.getD i default_call).return_label =
      "__backto_" ++ (calls.getD i default_call).caller_func ++ "_" ++ toString i

/-- Well-formedness invariant of the call-edge table, established by
registration from the empty table. -/
def calls_wf (calls : List FunctionCall) : Prop :=
  pair_unique calls ∧ labels_indexed calls

/-- The (type, value) projections of a parameter chain, in chain order. -/
def chain_to_params : ASTNode → List Param
  | .null => []
  | .mk t v _ _ nx => ⟨t, v⟩ :: chain_to_params nx

/-- The first `n` nodes of a sibling chain. -/
def chain_take : Nat → ASTNode → ASTNode
  | 0, _ => .null
  | _ + 1, .null => .null
  | n + 1, .mk t v l r nx => .mk t v l r (chain_take n nx)

/-- Modelled from the spec: a `Move` statement whose source operand is a
string or label-ref, the candidate shape of the backward `StrLen` search. -/
def is_move_with_string_src (n : ASTNode) : Bool :=
  match n with
  | .mk .TOKEN_MOVE _ _ (.mk rt _ _ _ _) _ =>
    rt == .TOKEN_STRING || rt == .TOKEN_LABEL
  | _ => false

/-- The source-operand text of a statement. -/
def move_src_value (n : ASTNode) : String :=
  match n with
  | .mk _ _ _ r _ => node_value r
  | .null => ""

/-- Modelled from the spec: the byte count of the text between the quotes,
where each backslash escape sequence (a backslash together with the
character it escapes) counts as one byte and every other character counts
as one byte. -/
def spec_byte_count : List Char → Nat
  | [] => 0
  | '\\' :: _ :: rest => 1 + spec_byte_count rest
  | _ :: rest => 1 + spec_byte_count rest

/-- Whether every backslash in the middle of a literal actually escapes a
following character (no dangling backslash just before the closing
quote). -/
def well_escaped : List Char → Bool
  | [] => true
  | '\\' :: [] => false
  | '\\' :: _ :: rest => well_escaped rest
  | _ :: rest => well_escaped rest

/-- The index of the last parameter slot holding a `Label` whose value
starts with `str_`, the slot the ascending rescan of the resolution loop
ends up selecting. -/
def last_match : List Param → Option Nat
  | [] => none
  | p :: rest =>
    match last_match rest with
    | some m => some (m + 1)
    | none =>
      if p.ptype = .TOKEN_LABEL ∧ has_str_prefix p.pvalue then some 0 else none

/-- The `StrLen` warning text of `process_syscall_parameters`. -/
def syscall_warning : String :=
  "Warning: No string parameter found for syscall with strlen\n"

/-- `n` copies of the `StrLen` warning. -/
def warn_repeat : Nat → String
  | 0 => ""
  | n + 1 => syscall_warning ++ warn_repeat n

/-- Quoted string literals occurring as syscall parameters, in scan
order. -/
def quoted_occ_params : ASTNode → List String
  | .null => []
  | .mk t v _ _ nx =>
    if t = .TOKEN_STRING ∧ isQuoted v then v :: quoted_occ_params nx
    else quoted_occ_params nx

/-- Quoted string literals occurring as `Move` sources or syscall
parameters in a statement chain, in scan order. -/
def quoted_occ_stmts : ASTNode → List String
  | .null => []
  | .mk t _ l r nx =>
    match t, r with
    | .TOKEN_MOVE, .mk .TOKEN_STRING rv _ _ _ =>
      if isQuoted rv then rv :: quoted_occ_stmts nx else quoted_occ_stmts nx
    | .TOKEN_SYS_CALL, _ => quoted_occ_params l ++ quoted_occ_stmts nx
    | _, _ => quoted_occ_stmts nx

/-- Quoted string literals occurring in the data-section scan of the whole
program, in scan order. -/
def quoted_occ_tops : ASTNode → List String
  | .null => []
  | .mk t _ l _ nx =>
    match t, l with
    | .TOKEN_LABEL, .mk .TOKEN_LBRACE _ bl _ _ =>
      quoted_occ_stmts bl ++ quoted_occ_tops nx
    | _, _ => quoted_occ_tops nx

/-- Modelled from the spec: the data-section declaration lines for a list
of literal occurrences, labelled sequentially from `k`. -/
def data_lines : List String → Nat → String
  | [], _ => ""
  | s :: rest, k =>
    "    " ++ ("str_" ++ toString k) ++ " db " ++ s ++ ", 0\n" ++ data_lines rest (k + 1)

/-- Modelled from the spec: the string-table entries for a list of literal
occurrences, labelled sequentially from `k`. -/
def spec_infos : List String → Nat → List StrInfo
  | [], _ => []
  | s :: rest, k =>
    ⟨"str_" ++ toString k, calculate_string_length s, s⟩ :: spec_infos rest (k + 1)

/-- Modelled from the spec: replace every quoted string parameter by a
label-ref carrying the next sequential `str_` label. -/
def spec_intern_params : ASTNode → Nat → Nat × ASTNode
  | .null, k => (k, .null)
  | .mk t v l r nx, k =>
    if t = .TOKEN_STRING ∧ isQuoted v then
      let rest := spec_intern_params nx (k + 1)
      (rest.1, .mk .TOKEN_LABEL ("str_" ++ toString k) l r rest.2)
    else
      let rest := spec_intern_params nx k
      (rest.1, .mk t v l r rest.2)

/-- Modelled from the spec: replace every quoted `Move` source and every
quoted syscall parameter in a statement chain. -/
def spec_intern_stmts : ASTNode → Nat → Nat × ASTNode
  | .null, k => (k, .null)
  | .mk t v l r nx, k =>
    match t, r with
    | .TOKEN_MOVE, .mk .TOKEN_STRING rv rl rr rnx =>
      if isQuoted rv then
        let rest := spec_intern_stmts nx (k + 1)
        (rest.1, .mk t v l (.mk .TOKEN_LABEL ("str_" ++ toString k) rl rr rnx) rest.2)
      else
        let rest := spec_intern_stmts nx k
        (rest.1, .mk t v l (.mk .TOKEN_STRING rv rl rr rnx) rest.2)
    | .TOKEN_SYS_CALL, _ =>
      let pp := spec_intern_params l k
      let rest := spec_intern_stmts nx pp.1
      (rest.1, .mk t v pp.2 r rest.2)
    | _, _ =>
      let rest := spec_intern_stmts nx k
      (rest.1, .mk t v l r rest.2)

/-- Modelled from the spec: the data-section transformation of the whole
program. -/
def spec_intern_tops : ASTNode → Nat → Nat × ASTNode
  | .null, k => (k, .null)
  | .mk t v l r nx, k =>
    match t, l with
    | .TOKEN_LABEL, .mk .TOKEN_LBRACE bv bl br bnx =>
      let s := spec_intern_stmts bl k
      let rest := spec_intern_tops nx s.1
      (rest.1, .mk t v (.mk .TOKEN_LBRACE bv s.2 br bnx) r rest.2)
    | _, _ =>
      let rest := spec_intern_tops nx k
      (rest.1, .mk t v l r rest.2)

/-- No syscall parameter in the chain is a raw quoted string. -/
def no_raw_quoted_params : ASTNode → Bool
  | .null => true
  | .mk t v _ _ nx => !(t == .TOKEN_STRING && isQuoted v) && no_raw_quoted_params nx

/-- No `Move` source and no syscall parameter in the statement chain is a
raw quoted string. -/
def no_raw_quoted_stmts : ASTNode → Bool
  | .null => true
  | .mk t _ l r nx =>
    (match t, r with
     | .TOKEN_MOVE, .mk .TOKEN_STRING rv _ _ _ => !(isQuoted rv)
     | .TOKEN_SYS_CALL, _ => no_raw_quoted_params l
     | _, _ => true) && no_raw_quoted_stmts nx

/-- No `Move` source and no syscall parameter anywhere in the program's
top-level function blocks is a raw quoted string. -/
def no_raw_quoted_tops : ASTNode → Bool
  | .null => true
  | .mk t _ l _ nx =>
    (match t, l with
     | .TOKEN_LABEL, .mk .TOKEN_LBRACE _ bl _ _ => no_raw_quoted_stmts bl
     | _, _ => true) && no_raw_quoted_tops nx

/-! Concrete programs and tables used by witnesses, counterexamples and the
end-to-end fidelity check. -/

/-- Leaf node shorthand. -/
def lf (t : TokenType) (v : String) : ASTNode := .mk t v .null .null .null

/-- The statement chain of the sample `main` function. -/
def sample_main_stmts : ASTNode :=
  .mk .TOKEN_CALL "call" (lf .TOKEN_LABEL "helloworld") .null
    (.mk .TOKEN_MOVE "move" (lf .TOKEN_IDENTIFIER "&1") (lf .TOKEN_NUMBER "1")
      (.mk .TOKEN_MOVE "move" (lf .TOKEN_IDENTIFIER "&2") (lf .TOKEN_NUMBER "0")
        (.mk .TOKEN_CALL "call" .null .null .null)))

/-- The statement chain of the sample `hello_2` function. -/
def sample_hello2_stmts : ASTNode :=
  .mk .TOKEN_SYS_CALL "syscall"
    (.mk .TOKEN_NUMBER "4" .null .null
      (.mk .TOKEN_NUMBER "1" .null .null
        (.mk .TOKEN_STRING "\"Helo2\"" .null .null
          (lf .TOKEN_STRLEN "&strlen&"))))
    .null .null

/-- The statement chain of the sample `helloworld` function. -/
def sample_helloworld_stmts : ASTNode :=
  .mk .TOKEN_SYS_CALL "syscall"
    (.mk .TOKEN_NUMBER "4" .null .null
      (.mk .TOKEN_NUMBER "1" .null .null
        (.mk .TOKEN_STRING "\"Hello World\"" .null .null
          (lf .TOKEN_STRLEN "&strlen&"))))
    .null
    (.mk .TOKEN_CALL "call" (lf .TOKEN_LABEL "hello_2") .null .null)

/-- The three-function sample program whose expected NASM output ships with
the repository. -/
def sample_ast : ASTNode :=
  .mk .TOKEN_LABEL "main" (.mk .TOKEN_LBRACE "\x7b" sample_main_stmts .null .null) .null
    (.mk .TOKEN_LABEL "hello_2" (.mk .TOKEN_LBRACE "\x7b" sample_hello2_stmts .null .null) .null
      (.mk .TOKEN_LABEL "helloworld"
        (.mk .TOKEN_LBRACE "\x7b" sample_helloworld_stmts .null .null) .null .null))

/-- The NASM text the repository records as the generator's output for the
sample program. -/
def sample_expected : String :=
  "section .data\n    str_0 db \"Helo2\", 0\n    str_1 db \"Hello World\", 0\n\n" ++
  "section .text\nglobal _start\n\n" ++
  "_exit:\n    mov eax, 1      ; exit system call\n    xor ebx, ebx    ; exit code 0\n" ++
  "    int 0x80        ; call kernel\n\n" ++
  "_start:\n    jmp main     ; Call the main function\n\n" ++
  "main:\n    jmp helloworld\n__backto_main_0:\n    mov eax, 1\n    mov ebx, 0\n" ++
  "    int 0x80\n    jmp _exit\n\n" ++
  "hello_2:\n    mov eax, 4\n    mov ebx, 1\n    mov ecx, str_0\n    mov edx, 5\n" ++
  "    int 0x80\n    jmp __backto_helloworld_1\n\n" ++
  "helloworld:\n    mov eax, 4\n    mov ebx, 1\n    mov ecx, str_1\n    mov edx, 11\n" ++
  "    int 0x80\n    jmp hello_2\n__backto_helloworld_1:\n    jmp __backto_main_0\n\n"

/-- A call-edge table already holding `MAX_CALLS` records. -/
def full_calls : List FunctionCall := List.replicate 100 ⟨"c", "d", "L", false⟩

/-- A syscall parameter chain of eight `Number` parameters. -/
def eight_params : ASTNode :=
  .mk .TOKEN_NUMBER "1" .null .null
    (.mk .TOKEN_NUMBER "2" .null .null
      (.mk .TOKEN_NUMBER "3" .null .null
        (.mk .TOKEN_NUMBER "4" .null .null
          (.mk .TOKEN_NUMBER "5" .null .null
            (.mk .TOKEN_NUMBER "6" .null .null
              (.mk .TOKEN_NUMBER "7" .null .null
                (.mk .TOKEN_NUMBER "8" .null .null .null)))))))

/-- A parameter chain with a string-label parameter on each side of the
`StrLen` parameter. -/
def straddle_params : ASTNode :=
  .mk .TOKEN_LABEL "str_0" .null .null
    (.mk .TOKEN_STRLEN "&strlen&" .null .null
      (.mk .TOKEN_LABEL "str_1" .null .null .null))

/-- A string table recording lengths 1 and 2 for the two labels of
`straddle_params`. -/
def straddle_infos : List StrInfo :=
  [⟨"str_0", 1, "\"A\""⟩, ⟨"str_1", 2, "\"BB\""⟩]

/-! Helper lemmas. -/

theorem consume_first_of_first_match (es1 : List FunctionCall) (e : FunctionCall)
    (es2 : List FunctionCall) (name : String) (he : e.callee_func = name)
    (hu : e.used = false)
    (hn : ∀ x ∈ es1, ¬(x.callee_func = name ∧ x.used = false)) :
    consume_first (es1 ++ e :: es2) name =
      some (e.return_label,
        es1 ++ ⟨e.caller_func, e.callee_func, e.return_label, true⟩ :: es2) := by
  induction es1 with
  | nil =>
    simp only [List.nil_append, consume_first]
    rw [if_pos ⟨he, hu⟩]
  | cons x xs ih =>
    have hx : ¬(x.callee_func = name ∧ x.used = false) := hn x (by simp)
    have ih2 := ih (fun y hy => hn y (by simp [hy]))
    simp only [List.cons_append, consume_first, List.append_eq]
    rw [if_neg hx, ih2]

theorem consume_first_of_no_match (calls : List FunctionCall) (name : String)
    (hn : ∀ x ∈ calls, ¬(x.callee_func = name ∧ x.used = false)) :
    consume_first calls name = none := by
  induction calls with
  | nil => rfl
  | cons x xs ih =>
    have hx : ¬(x.callee_func = name ∧ x.used = false) := hn x (by simp)
    have ih2 := ih (fun y hy => hn y (by simp [hy]))
    simp only [consume_first]
    rw [if_neg hx, ih2]

theorem collect_params_take (chain : ASTNode) :
    ∀ cnt counter infos, cnt ≤ 7 →
      collect_params chain cnt counter infos =
        collect_params (chain_take (7 - cnt) chain) cnt counter infos := by
  induction chain with
  | null =>
    intro cnt counter infos _
    cases h7 : 7 - cnt <;> rfl
  | mk t v l r nx ihl ihr ihn =>
    intro cnt counter infos h
    by_cases hc : cnt < 7
    · have h7 : 7 - cnt = (7 - (cnt + 1)) + 1 := by omega
      have hrec : ∀ c i, collect_params nx (cnt + 1) c i =
          collect_params (chain_take (7 - (cnt + 1)) nx) (cnt + 1) c i :=
        fun c i => ihn (cnt + 1) c i (by omega)
      rw [h7]
      by_cases ht : t = .TOKEN_STRING
      · simp only [chain_take, collect_params, if_pos hc, if_pos ht, hrec]
      · simp only [chain_take, collect_params, if_pos hc, if_neg ht, hrec]
    · have hcnt : cnt = 7 := by omega
      subst hcnt
      simp only [Nat.sub_self, chain_take, collect_params, if_neg hc]

/-! End-to-end fidelity check: the embedded generator reproduces, byte for
byte, the NASM output the repository records for its sample program. -/

set_option maxRecDepth 100000 in
theorem generator_matches_sample :
    generate_nasm sample_ast ⟨0, [], []⟩ = ⟨sample_expected, "", ⟨2, [], []⟩⟩ := by
  decide

/-- C1: for a non-main function, the epilogue emitted after the body is
determined by the call-edge table: if some edge with `callee_func` equal to
the function and `used` unset exists, the first such edge's return label is
jumped to exactly once and that edge (and no other) is marked consumed;
with no such edge (in particular for an uncalled function), a plain `ret`
is emitted.  For `main` the epilogue is `jmp _exit`. -/
theorem c1_function_epilogue (name : String) (calls : List FunctionCall) :
    (name = "main" → function_epilogue name calls = ("    jmp _exit\n", calls)) ∧
    (name ≠ "main" →
      (∀ es1 e es2, calls = es1 ++ e :: es2 → e.callee_func = name → e.used = false →
        (∀ x ∈ es1, ¬(x.callee_func = name ∧ x.used = false)) →
        function_epilogue name calls =
          ("    jmp " ++ e.return_label ++ "\n",
            es1 ++ ⟨e.caller_func, e.callee_func, e.return_label, true⟩ :: es2)) ∧
      ((∀ x ∈ calls, ¬(x.callee_func = name ∧ x.used = false)) →
        function_epilogue name calls = ("    ret\n", calls))) := by
  constructor
  · intro h
    simp [function_epilogue, h]
  · intro h
    refine ⟨?_, ?_⟩
    · intro es1 e es2 hcalls he hu hn
      subst hcalls
      simp only [function_epilogue, if_neg h]
      rw [consume_first_of_first_match es1 e es2 name he hu hn]
    · intro hn
      simp only [function_epilogue, if_neg h]
      rw [consume_first_of_no_match calls name hn]

theorem c1_function_epilogue_witness :
    function_epilogue "foo" [⟨"main", "foo", "__backto_main_0", false⟩] =
      ("    jmp __backto_main_0\n", [⟨"main", "foo", "__backto_main_0", true⟩]) ∧
    function_epilogue "bar" [⟨"main", "foo", "__backto_main_0", false⟩] =
      ("    ret\n", [⟨"main", "foo", "__backto_main_0", false⟩]) ∧
    function_epilogue "main" [⟨"main", "foo", "__backto_main_0", false⟩] =
      ("    jmp _exit\n", [⟨"main", "foo", "__backto_main_0", false⟩]) := by
  refine ⟨?_, ?_, ?_⟩
  · exact ((c1_function_epilogue "foo" _).2 (by decide)).1 []
      ⟨"main", "foo", "__backto_main_0", false⟩ [] rfl rfl rfl (by simp)
  · exact ((c1_function_epilogue "bar" _).2 (by decide)).2 (by decide)
  · exact (c1_function_epilogue "main" _).1 rfl

/-- C5: the generator's output (file text, diagnostics and final state
alike) is independent of the incoming global state: running it on two
structurally identical AST instances with any two incoming states, or
running it a second time on the state the first run left behind, produces
byte-identical output. -/
theorem c5_state_independence (ast ast2 : ASTNode) (st1 st2 : CGState) :
    generate_nasm ast st1 = generate_nasm ast st2 ∧
    generate_nasm ast2 (generate_nasm ast st1).state = generate_nasm ast2 st2 := by
  constructor <;> rfl

/-- C8: a statement node whose kind carries no `case` label in the
emission switch contributes exactly one diagnostic naming the kind's
numeric code to the error stream, contributes nothing to the emitted file,
leaves the generator state untouched, and the remaining siblings are
processed exactly as if the node were absent. -/
theorem c8_unknown_kind (fn : String) (t : TokenType) (v : String) (l r nx : ASTNode)
    (prevs : List ASTNode) (st : CGState) (h : is_recognized_stmt t = false) :
    generate_stmts fn (.mk t v l r nx) prevs st =
      (let rest := generate_stmts fn nx (ASTNode.mk t v l r nx :: prevs) st
       ⟨rest.out, "Unknown AST node type: " ++ toString (tokenTypeCode t) ++ "\n" ++ rest.err,
         rest.state⟩) := by
  cases t <;> first
    | rfl
    | simp [is_recognized_stmt] at h

theorem c8_unknown_kind_witness :
    is_recognized_stmt .TOKEN_SEMICOLON = false ∧
    generate_stmts "f"
        (.mk .TOKEN_SEMICOLON ";" .null .null
          (.mk .TOKEN_RETURN "return" .null .null .null)) [] ⟨0, [], []⟩ =
      ⟨"    ret\n", "Unknown AST node type: 21\n", ⟨0, [], []⟩⟩ := by
  have h := c8_unknown_kind "f" .TOKEN_SEMICOLON ";" .null .null
    (.mk .TOKEN_RETURN "return" .null .null .null) [] ⟨0, [], []⟩ rfl
  exact ⟨rfl, by rw [h]; rfl⟩

/-- C9 (amended): a syscall's emission, diagnostics and state updates
depend only on the first 7 parameters of its chain: parameters past the
seventh are dropped without any diagnostic. -/
theorem c9_syscall_truncation (params : ASTNode) (counter : Nat) (infos : List StrInfo) :
    (process_syscall_parameters params counter infos).out =
      (process_syscall_parameters (chain_take 7 params) counter infos).out ∧
    (process_syscall_parameters params counter infos).err =
      (process_syscall_parameters (chain_take 7 params) counter infos).err ∧
    (process_syscall_parameters params counter infos).counter =
      (process_syscall_parameters (chain_take 7 params) counter infos).counter ∧
    (process_syscall_parameters params counter infos).infos =
      (process_syscall_parameters (chain_take 7 params) counter infos).infos := by
  cases params with
  | null => exact ⟨rfl, rfl, rfl, rfl⟩
  | mk t v l r nx =>
    have h := collect_params_take (ASTNode.mk t v l r nx) 0 counter infos (by omega)
    simp only [Nat.sub_zero] at h
    have hshape : chain_take 7 (ASTNode.mk t v l r nx) =
        ASTNode.mk t v l r (chain_take 6 nx) := rfl
    rw [hshape] at h ⊢
    simp only [process_syscall_parameters, h]
    exact ⟨trivial, trivial, trivial, trivial⟩

/-- C9 counterexample: a syscall with eight parameters marshals only the
first seven and emits no diagnostic whatsoever (empty error stream),
contradicting the claimed warning. -/
theorem c9_counterexample :
    (process_syscall_parameters eight_params 0 []).out =
      "    mov eax, 1\n    mov ebx, 2\n    mov ecx, 3\n    mov edx, 4\n" ++
      "    mov esi, 5\n    mov edi, 6\n    mov ebp, 7\n    int 0x80\n" ∧
    (process_syscall_parameters eight_params 0 []).err = "" := by
  exact ⟨rfl, rfl⟩

/-- C10: a `Call` node with no callee operand emits exactly the software
interrupt `int 0x80`, defines no label, registers no call edge, and passes
the generator state to its successors unchanged. -/
theorem c10_call_without_callee (fn v : String) (r nx : ASTNode) (prevs : List ASTNode)
    (st : CGState) :
    generate_stmts fn (.mk .TOKEN_CALL v .null r nx) prevs st =
      (let rest := generate_stmts fn nx (ASTNode.mk .TOKEN_CALL v .null r nx :: prevs) st
       ⟨"    int 0x80\n" ++ rest.out, rest.err, rest.state⟩) := rfl

theorem find_prev_eq_find (prevs : List ASTNode) :
    find_prev_string_label prevs = (prevs.find? is_move_with_string_src).map move_src_value := by
  induction prevs with
  | nil => rfl
  | cons n rest ih =>
    cases n with
    | null => simp [find_prev_string_label, List.find?, is_move_with_string_src, ih]
    | mk t v l r nx =>
      cases t <;>
        try simp [find_prev_string_label, List.find?, is_move_with_string_src, ih]
      cases r with
      | null => simp [find_prev_string_label, List.find?, is_move_with_string_src, ih]
      | mk rt rv rl rr rnx =>
        cases rt <;>
          (try simp [find_prev_string_label, List.find?, is_move_with_string_src, ih,
            move_src_value, node_value]) <;>
          rfl

theorem find_string_length_first (pre : List StrInfo) (e : StrInfo) (post : List StrInfo)
    (label : String) (hpre : ∀ x ∈ pre, x.label ≠ label) (he : e.label = label) :
    find_string_length (pre ++ e :: post) label = e.length := by
  induction pre with
  | nil => simp [find_string_length, he]
  | cons x xs ih =>
    have hx := hpre x (by simp)
    simp only [List.cons_append, find_string_length]
    rw [if_neg hx]
    exact ih (fun y hy => hpre y (by simp [hy]))

theorem calc_middle_len_eq_spec (l : List Char) (h : well_escaped l = true) :
    calc_middle_len l = spec_byte_count l := by
  induction l using calc_middle_len.induct with
  | case1 => rfl
  | case2 => simp [well_escaped] at h
  | case3 a b ih =>
    have hr : well_escaped b = true := by simpa [well_escaped] using h
    simp [calc_middle_len, spec_byte_count, ih hr]
  | case4 a b hc ih =>
    have hr : well_escaped b = true := by
      cases b with
      | nil => rfl
      | cons x xs =>
        rw [well_escaped.eq_4 a (x :: xs) (fun h1 _ => hc h1) (fun _ _ h1 _ => hc h1)] at h
        exact h
    have hs : spec_byte_count (a :: b) = 1 + spec_byte_count b := by
      cases b with
      | nil =>
        rw [spec_byte_count.eq_def]
        simp [spec_byte_count]
      | cons x xs =>
        rw [spec_byte_count.eq_3 a (x :: xs) (fun _ _ h1 _ => hc h1)]
    have hcl : calc_middle_len (a :: b) = 1 + calc_middle_len b := by
      cases b with
      | nil => rw [calc_middle_len.eq_2, if_neg hc]
      | cons x xs => rw [calc_middle_len.eq_3, if_neg hc]
    rw [hcl, hs, ih hr]

/-- C4: for a `Move` whose source is a `StrLen`, the generator walks the
`prev` chain for the nearest earlier `Move` whose source is a string or
label-ref (the chain search agrees with `List.find?` over the earlier
siblings, nearest first); when found it moves that literal's recorded byte
length (the first string-table entry under that label) into the
register-translated destination; when no candidate exists it emits a
warning and moves length `0`. -/
theorem c4_move_strlen (dt : TokenType) (lv rv : String) (ll lr lnx rl rr rnx : ASTNode)
    (prevs : List ASTNode) (counter : Nat) (infos : List StrInfo) :
    (∀ v, find_prev_string_label prevs = some v →
      handle_move (.mk dt lv ll lr lnx) (.mk .TOKEN_STRLEN rv rl rr rnx) prevs counter infos =
        ⟨"    mov " ++ translate_register lv ++ ", " ++
          toString (find_string_length infos v) ++ "\n", "", counter, infos⟩) ∧
    (find_prev_string_label prevs = none →
      handle_move (.mk dt lv ll lr lnx) (.mk .TOKEN_STRLEN rv rl rr rnx) prevs counter infos =
        ⟨"    mov " ++ translate_register lv ++ ", 0\n",
          "Warning: No previous string found for strlen\n", counter, infos⟩) ∧
    find_prev_string_label prevs = (prevs.find? is_move_with_string_src).map move_src_value ∧
    (∀ pre e post, infos = pre ++ e :: post → (∀ x ∈ pre, x.label ≠ e.label) →
      find_string_length infos e.label = e.length) := by
  refine ⟨?_, ?_, find_prev_eq_find prevs, ?_⟩
  · intro v hv
    simp [handle_move, hv]
  · intro hv
    simp [handle_move, hv]
  · intro pre e post hi hpre
    subst hi
    exact find_string_length_first pre e post e.label hpre rfl

theorem c4_move_strlen_witness :
    find_prev_string_label
        [ASTNode.mk .TOKEN_MOVE "move" (lf .TOKEN_IDENTIFIER "&3") (lf .TOKEN_LABEL "str_0") .null] =
      some "str_0" ∧
    handle_move (lf .TOKEN_IDENTIFIER "&1") (lf .TOKEN_STRLEN "&strlen&")
        [ASTNode.mk .TOKEN_MOVE "move" (lf .TOKEN_IDENTIFIER "&3") (lf .TOKEN_LABEL "str_0") .null]
        0 [⟨"str_0", 11, "\"Hello World\""⟩] =
      ⟨"    mov eax, 11\n", "", 0, [⟨"str_0", 11, "\"Hello World\""⟩]⟩ := by
  have h := (c4_move_strlen .TOKEN_IDENTIFIER "&1" "&strlen&" .null .null .null .null .null .null
    [ASTNode.mk .TOKEN_MOVE "move" (lf .TOKEN_IDENTIFIER "&3") (lf .TOKEN_LABEL "str_0") .null]
    0 [⟨"str_0", 11, "\"Hello World\""⟩]).1 "str_0" rfl
  exact ⟨rfl, h⟩

/-- C6: for a string literal of length at least 2 whose text begins and
ends with a quote (and whose middle does not end in a dangling
backslash), the computed byte length is the spec's count over the
characters between the quotes, with each backslash escape sequence
collapsed to one byte; in particular the literals of the spec's examples
measure 11, 5 and 3. -/
theorem c6_string_length (s : String)
    (h2 : 2 ≤ s.data.length) (hh : s.data.head? = some '"') (hl : s.data.getLast? = some '"')
    (hw : well_escaped ((s.data.drop 1).dropLast) = true) :
    calculate_string_length s = spec_byte_count ((s.data.drop 1).dropLast) ∧
    calculate_string_length "\"Hello World\"" = 11 ∧
    calculate_string_length "\"Helo2\"" = 5 ∧
    calculate_string_length "\"a\\nb\"" = 3 := by
  refine ⟨?_, by decide, by decide, by decide⟩
  simp only [calculate_string_length]
  rw [if_pos ⟨h2, hh, hl⟩]
  exact calc_middle_len_eq_spec _ hw

theorem c6_string_length_witness :
    (2 ≤ ("\"a\\nb\"" : String).data.length) ∧
    calculate_string_length "\"a\\nb\"" =
      spec_byte_count ((("\"a\\nb\"" : String).data.drop 1).dropLast) := by
  have h := c6_string_length "\"a\\nb\"" (by decide) (by decide) (by decide) (by decide)
  exact ⟨by decide, h.1⟩

theorem find_call_index_some (calls : List FunctionCall) (a b : String) :
    ∀ k i, find_call_index calls a b k = some i →
      ∃ j, j < calls.length ∧ i = k + j ∧
        (calls.getD j default_call).caller_func = a ∧
        (calls.getD j default_call).callee_func = b := by
  induction calls with
  | nil => intro k i h; simp [find_call_index] at h
  | cons e rest ih =>
    intro k i h
    simp only [find_call_index] at h
    by_cases he : e.caller_func = a ∧ e.callee_func = b
    · rw [if_pos he] at h
      refine ⟨0, by simp, by simpa using h.symm, by simpa using he.1, by simpa using he.2⟩
    · rw [if_neg he] at h
      obtain ⟨j, hj, hi, h1, h2⟩ := ih (k + 1) i h
      exact ⟨j + 1, by simpa using hj, by omega, by simpa using h1, by simpa using h2⟩

theorem find_call_index_none (calls : List FunctionCall) (a b : String) :
    ∀ k, find_call_index calls a b k = none →
      ∀ j, j < calls.length →
        ¬((calls.getD j default_call).caller_func = a ∧
          (calls.getD j default_call).callee_func = b) := by
  induction calls with
  | nil => intro k _ j hj; simp at hj
  | cons e rest ih =>
    intro k h j hj
    simp only [find_call_index] at h
    by_cases he : e.caller_func = a ∧ e.callee_func = b
    · rw [if_pos he] at h; exact absurd h (by simp)
    · rw [if_neg he] at h
      cases j with
      | zero => simpa using he
      | succ n => exact ih (k + 1) h n (by simpa using hj)

theorem find_call_index_first (calls : List FunctionCall) (a b : String) :
    ∀ k i, i < calls.length →
      (calls.getD i default_call).caller_func = a →
      (calls.getD i default_call).callee_func = b →
      (∀ j, j < i →
        ¬((calls.getD j default_call).caller_func = a ∧
          (calls.getD j default_call).callee_func = b)) →
      find_call_index calls a b k = some (k + i) := by
  induction calls with
  | nil => intro k i hi; simp at hi
  | cons e rest ih =>
    intro k i hi h1 h2 hless
    simp only [find_call_index]
    cases i with
    | zero =>
      rw [if_pos ⟨by simpa using h1, by simpa using h2⟩]
      simp
    | succ n =>
      have he : ¬(e.caller_func = a ∧ e.callee_func = b) := by
        simpa using hless 0 (by omega)
      rw [if_neg he]
      have step := ih (k + 1) n (by simpa using hi) (by simpa using h1) (by simpa using h2)
        (fun j hj => by simpa using hless (j + 1) (by omega))
      rw [step]
      exact congrArg some (by omega)

theorem generate_return_label_spec (caller callee : String) (calls : List FunctionCall)
    (hwf : calls_wf calls) (hcap : calls.length < MAX_CALLS) :
    (generate_return_label caller callee calls).err = "" ∧
    calls_wf (generate_return_label caller callee calls).calls ∧
    (∃ i, i < (generate_return_label caller callee calls).calls.length ∧
      ((generate_return_label caller callee calls).calls.getD i default_call).caller_func
        = caller ∧
      ((generate_return_label caller callee calls).calls.getD i default_call).callee_func
        = callee ∧
      ((generate_return_label caller callee calls).calls.getD i default_call).return_label
        = (generate_return_label caller callee calls).label ∧
      (generate_return_label caller callee calls).label =
        "__backto_" ++ caller ++ "_" ++ toString i ∧
      ∀ j, j < (generate_return_label caller callee calls).calls.length →
        ((generate_return_label caller callee calls).calls.getD j default_call).caller_func
          = caller →
        ((generate_return_label caller callee calls).calls.getD j default_call).callee_func
          = callee → j = i) ∧
    generate_return_label caller callee (generate_return_label caller callee calls).calls =
      ⟨(generate_return_label caller callee calls).label, "",
        (generate_return_label caller callee calls).calls⟩ := by
  cases hfind : find_call_index calls caller callee 0 with
  | some i =>
    obtain ⟨j, hj, hij, hca, hcb⟩ := find_call_index_some calls caller callee 0 i hfind
    have hi : i = j := by omega
    subst hi
    have hlab : (calls.getD i default_call).return_label =
        "__backto_" ++ caller ++ "_" ++ toString i := by
      have := hwf.2 i hj
      rw [hca] at this
      exact this
    have hg : generate_return_label caller callee calls =
        ⟨(calls.getD i default_call).return_label, "", calls⟩ := by
      simp [generate_return_label, register_function_call, hfind]
    rw [hg]
    refine ⟨rfl, hwf, ⟨i, hj, hca, hcb, rfl, hlab, ?_⟩, ?_⟩
    · intro j2 hj2 h1 h2
      exact hwf.1 j2 i hj2 hj (h1.trans hca.symm) (h2.trans hcb.symm)
    · simp [generate_return_label, register_function_call, hfind]
  | none =>
    have hnotin := find_call_index_none calls caller callee 0 hfind
    have hcap2 : ¬(MAX_CALLS ≤ calls.length) := by omega
    have hfresh : (calls ++ [(⟨caller, callee,
        "__backto_" ++ caller ++ "_" ++ toString calls.length, false⟩ : FunctionCall)]).getD calls.length
          default_call =
        ⟨caller, callee, "__backto_" ++ caller ++ "_" ++ toString calls.length, false⟩ := by
      rw [List.getD_append_right _ _ _ _ (le_refl _), Nat.sub_self]
      rfl
    have hg : generate_return_label caller callee calls =
        ⟨"__backto_" ++ caller ++ "_" ++ toString calls.length, "",
          calls ++ [(⟨caller, callee,
            "__backto_" ++ caller ++ "_" ++ toString calls.length, false⟩ : FunctionCall)]⟩ := by
      simp only [generate_return_label, register_function_call, hfind, if_neg hcap2]
      rw [hfresh]
    have hwf2 : calls_wf (calls ++ [(⟨caller, callee,
        "__backto_" ++ caller ++ "_" ++ toString calls.length, false⟩ : FunctionCall)]) := by
      constructor
      · intro i j hi hj h1 h2
        simp only [List.length_append, List.length_cons, List.length_nil] at hi hj
        rcases Nat.lt_or_ge i calls.length with hi2 | hi2 <;>
          rcases Nat.lt_or_ge j calls.length with hj2 | hj2
        · rw [List.getD_append _ _ _ _ hi2, List.getD_append _ _ _ _ hj2] at h1 h2
          exact hwf.1 i j hi2 hj2 h1 h2
        · have hj3 : j = calls.length := by omega
          subst hj3
          rw [List.getD_append _ _ _ _ hi2, hfresh] at h1 h2
          exact absurd ⟨h1, h2⟩ (hnotin i hi2)
        · have hi3 : i = calls.length := by omega
          subst hi3
          rw [List.getD_append _ _ _ _ hj2, hfresh] at h1 h2
          exact absurd ⟨h1.symm, h2.symm⟩ (hnotin j hj2)
        · omega
      · intro i hi
        simp only [List.length_append, List.length_cons, List.length_nil] at hi
        rcases Nat.lt_or_ge i calls.length with hi2 | hi2
        · rw [List.getD_append _ _ _ _ hi2]
          exact hwf.2 i hi2
        · have hi3 : i = calls.length := by omega
          subst hi3
          rw [hfresh]
    rw [hg]
    refine ⟨rfl, hwf2, ⟨calls.length, by simp, ?_, ?_, ?_, rfl, ?_⟩, ?_⟩
    · rw [hfresh]
    · rw [hfresh]
    · rw [hfresh]
    · intro j hj h1 h2
      simp only [List.length_append, List.length_cons, List.length_nil] at hj
      rcases Nat.lt_or_ge j calls.length with hj2 | hj2
      · rw [List.getD_append _ _ _ _ hj2] at h1 h2
        exact absurd ⟨h1, h2⟩ (hnotin j hj2)
      · omega
    · have hfind2 : find_call_index (calls ++ [(⟨caller, callee,
          "__backto_" ++ caller ++ "_" ++ toString calls.length, false⟩ : FunctionCall)]) caller callee 0 =
          some calls.length := by
        have := find_call_index_first (calls ++ [(⟨caller, callee,
            "__backto_" ++ caller ++ "_" ++ toString calls.length, false⟩ : FunctionCall)]) caller callee 0
          calls.length (by simp) (by rw [hfresh]) (by rw [hfresh])
          (fun j hj => by
            rw [List.getD_append _ _ _ _ (by simpa using hj)]
            exact hnotin j (by simpa using hj))
        simpa using this
      simp only [generate_return_label, register_function_call, hfind2]
      rw [hfresh]

/-- C2 (amended): provided the call-edge table holds fewer than 100
records, every `Call` node with a callee operand emits `jmp <callee>`
immediately followed by a definition line for the (caller, callee) edge's
return label; the table then holds exactly one record for that pair, its
return label is `__backto_<caller>_<edge-index>` with the edge index the
record's position in the table, the table's well-formedness is preserved,
and re-registering the same pair returns the same label and leaves the
table unchanged. -/
theorem c2_call_emission (fn v : String) (lt : TokenType) (lv : String)
    (ll lr lnx r nx : ASTNode) (prevs : List ASTNode) (st : CGState)
    (hwf : calls_wf st.function_calls) (hcap : st.function_calls.length < MAX_CALLS) :
    (generate_stmts fn (.mk .TOKEN_CALL v (.mk lt lv ll lr lnx) r nx) prevs st =
      (let g := generate_return_label fn lv st.function_calls
       let st2 : CGState := ⟨st.string_counter, st.string_infos, g.calls⟩
       let rest := generate_stmts fn nx
         (ASTNode.mk .TOKEN_CALL v (ASTNode.mk lt lv ll lr lnx) r nx :: prevs) st2
       ⟨"    jmp " ++ lv ++ "\n" ++ g.label ++ ":\n" ++ rest.out,
         g.err ++ rest.err, rest.state⟩)) ∧
    (generate_return_label fn lv st.function_calls).err = "" ∧
    calls_wf (generate_return_label fn lv st.function_calls).calls ∧
    (∃ i, i < (generate_return_label fn lv st.function_calls).calls.length ∧
      ((generate_return_label fn lv st.function_calls).calls.getD i default_call).caller_func
        = fn ∧
      ((generate_return_label fn lv st.function_calls).calls.getD i default_call).callee_func
        = lv ∧
      ((generate_return_label fn lv st.function_calls).calls.getD i default_call).return_label
        = (generate_return_label fn lv st.function_calls).label ∧
      (generate_return_label fn lv st.function_calls).label =
        "__backto_" ++ fn ++ "_" ++ toString i ∧
      ∀ j, j < (generate_return_label fn lv st.function_calls).calls.length →
        ((generate_return_label fn lv st.function_calls).calls.getD j default_call).caller_func
          = fn →
        ((generate_return_label fn lv st.function_calls).calls.getD j default_call).callee_func
          = lv → j = i) ∧
    generate_return_label fn lv (generate_return_label fn lv st.function_calls).calls =
      ⟨(generate_return_label fn lv st.function_calls).label, "",
        (generate_return_label fn lv st.function_calls).calls⟩ :=
  ⟨rfl, generate_return_label_spec fn lv st.function_calls hwf hcap⟩

theorem c2_call_emission_witness :
    calls_wf ([] : List FunctionCall) ∧
    (generate_stmts "main"
        (.mk .TOKEN_CALL "call" (.mk .TOKEN_LABEL "foo" .null .null .null) .null .null)
        [] ⟨0, [], []⟩).out = "    jmp foo\n__backto_main_0:\n" := by
  have hwf : calls_wf ([] : List FunctionCall) :=
    ⟨fun i j hi => by simp at hi, fun i hi => by simp at hi⟩
  have h := (c2_call_emission "main" "call" .TOKEN_LABEL "foo" .null .null .null .null .null
    [] ⟨0, [], []⟩ hwf (by decide)).1
  refine ⟨hwf, ?_⟩
  rw [h]
  rfl

set_option maxRecDepth 10000 in
/-- C2 counterexample: with the call-edge table already at its 100-record
capacity, a `Call` from `f` to `g` emits the label line `__error_label:`
(not a `__backto_` label of any registered edge), prints a diagnostic, and
registers no edge for the pair: the claim's universally quantified emission
contract fails at this input. -/
theorem c2_counterexample :
    (generate_stmts "f" (.mk .TOKEN_CALL "call" (.mk .TOKEN_LABEL "g" .null .null .null)
        .null .null) [] ⟨0, [], full_calls⟩).out = "    jmp g\n__error_label:\n" ∧
    (generate_stmts "f" (.mk .TOKEN_CALL "call" (.mk .TOKEN_LABEL "g" .null .null .null)
        .null .null) [] ⟨0, [], full_calls⟩).err = "Too many function calls!\n" ∧
    (generate_stmts "f" (.mk .TOKEN_CALL "call" (.mk .TOKEN_LABEL "g" .null .null .null)
        .null .null) [] ⟨0, [], full_calls⟩).state.function_calls = full_calls ∧
    ∀ e ∈ full_calls, ¬(e.caller_func = "f" ∧ e.callee_func = "g") := by
  refine ⟨by decide, by decide, by decide, ?_⟩
  intro e he
  simp only [full_calls] at he
  have := List.eq_of_mem_replicate he
  subst this
  simp

theorem scan_go_eq (l : List Param) : ∀ k acc, scan_go l k acc =
    (match last_match l with | some m => some (k + m) | none => acc) := by
  induction l with
  | nil => intro k acc; rfl
  | cons p rest ih =>
    intro k acc
    simp only [scan_go, last_match]
    rw [ih]
    cases hlm : last_match rest with
    | some m =>
      simp only []
      exact congrArg some (by omega)
    | none =>
      by_cases hp : p.ptype = .TOKEN_LABEL ∧ has_str_prefix p.pvalue
      · simp [hp]
      · simp [hp]

theorem scan_str_label_eq (arr : List Param) : scan_str_label arr = last_match arr := by
  rw [scan_str_label, scan_go_eq]
  cases h : last_match arr <;> simp

theorem last_match_none_spec (l : List Param) :
    last_match l = none → ∀ k, k < l.length →
      ¬((l.getD k default_param).ptype = .TOKEN_LABEL ∧
        has_str_prefix (l.getD k default_param).pvalue = true) := by
  induction l with
  | nil => intro _ k hk; simp at hk
  | cons p rest ih =>
    intro h k hk
    simp only [last_match] at h
    cases hlm : last_match rest with
    | some m => rw [hlm] at h; exact absurd h (by simp)
    | none =>
      rw [hlm] at h
      by_cases hp : p.ptype = .TOKEN_LABEL ∧ has_str_prefix p.pvalue
      · rw [if_pos hp] at h; exact absurd h (by simp)
      · cases k with
        | zero => simpa using hp
        | succ n => exact ih hlm n (by simpa using hk)

theorem last_match_spec (l : List Param) : ∀ m, last_match l = some m →
    m < l.length ∧
    (l.getD m default_param).ptype = .TOKEN_LABEL ∧
    has_str_prefix (l.getD m default_param).pvalue = true ∧
    ∀ k, m < k → k < l.length →
      ¬((l.getD k default_param).ptype = .TOKEN_LABEL ∧
        has_str_prefix (l.getD k default_param).pvalue = true) := by
  induction l with
  | nil => intro m h; simp [last_match] at h
  | cons p rest ih =>
    intro m h
    simp only [last_match] at h
    cases hlm : last_match rest with
    | some m2 =>
      rw [hlm] at h
      have hm : m = m2 + 1 := by simpa using h.symm
      subst hm
      obtain ⟨h1, h2, h3, h4⟩ := ih m2 hlm
      refine ⟨by simpa using h1, by simpa using h2, by simpa using h3, ?_⟩
      intro k hk1 hk2
      cases k with
      | zero => omega
      | succ n => simpa using h4 n (by omega) (by simpa using hk2)
    | none =>
      rw [hlm] at h
      by_cases hp : p.ptype = .TOKEN_LABEL ∧ has_str_prefix p.pvalue
      · rw [if_pos hp] at h
        have hm : m = 0 := by simpa using h.symm
        subst hm
        refine ⟨by simp, by simpa using hp.1, by simpa using hp.2, ?_⟩
        intro k hk1 hk2
        cases k with
        | zero => omega
        | succ n => simpa using last_match_none_spec rest hlm n (by simpa using hk2)
      · rw [if_neg hp] at h
        exact absurd h (by simp)

theorem last_match_set_not_label (l : List Param) :
    ∀ i q, (l.getD i default_param).ptype ≠ .TOKEN_LABEL → q.ptype ≠ .TOKEN_LABEL →
      last_match (l.set i q) = last_match l := by
  induction l with
  | nil => intro i q _ _; simp
  | cons p rest ih =>
    intro i q hold hnew
    cases i with
    | zero =>
      have hold2 : p.ptype ≠ .TOKEN_LABEL := by simpa using hold
      have hp : ¬(p.ptype = .TOKEN_LABEL ∧ has_str_prefix p.pvalue) := by
        intro hc; exact hold2 hc.1
      have hq : ¬(q.ptype = .TOKEN_LABEL ∧ has_str_prefix q.pvalue) := by
        intro hc; exact hnew hc.1
      show last_match (q :: rest) = last_match (p :: rest)
      simp only [last_match]
      cases last_match rest with
      | some m => rfl
      | none => rw [if_neg hp, if_neg hq]
    | succ n =>
      show last_match (p :: rest.set n q) = last_match (p :: rest)
      simp only [last_match]
      rw [ih n q (by simpa using hold) hnew]

theorem take_succ_set (l : List Param) :
    ∀ i q, i < l.length → (l.set i q).take (i + 1) = l.take i ++ [q] := by
  induction l with
  | nil => intro i q h; simp at h
  | cons x xs ih =>
    intro i q h
    cases i with
    | zero => rfl
    | succ n =>
      show x :: (xs.set n q).take (n + 1) = x :: (xs.take n ++ [q])
      rw [ih n q (by simpa using h)]

theorem drop_succ_set (l : List Param) :
    ∀ i q, (l.set i q).drop (i + 1) = l.drop (i + 1) := by
  induction l with
  | nil => intro i q; simp
  | cons x xs ih =>
    intro i q
    cases i with
    | zero => rfl
    | succ n =>
      show (xs.set n q).drop (n + 1) = xs.drop (n + 1)
      exact ih n q

theorem drop_getD_cons (l : List Param) (i : Nat) (h : i < l.length) :
    l.drop i = l.getD i default_param :: l.drop (i + 1) := by
  rw [List.drop_eq_getElem_cons h, List.getD_eq_getElem _ _ h]

theorem take_succ_getD (l : List Param) (i : Nat) (h : i < l.length) :
    l.take (i + 1) = l.take i ++ [l.getD i default_param] := by
  rw [List.take_succ, List.getElem?_eq_getElem h, List.getD_eq_getElem _ _ h]
  rfl

theorem getD_set_ne (l : List Param) (i j : Nat) (q : Param) (hij : i ≠ j) :
    (l.set i q).getD j default_param = l.getD j default_param := by
  rw [List.getD_eq_getElem?_getD, List.getElem?_set_ne hij, ← List.getD_eq_getElem?_getD]

theorem get_opt_eq_getD (l : List Param) (i : Nat) (h : i < l.length) :
    l.get? i = some (l.getD i default_param) := by
  rw [List.get?_eq_getElem?, List.getElem?_eq_getElem h, List.getD_eq_getElem _ _ h]

theorem get_opt_eq_none (l : List Param) (i : Nat) (h : l.length ≤ i) :
    l.get? i = none := by
  rw [List.get?_eq_getElem?]
  exact List.getElem?_eq_none h

theorem resolve_go_some (infos : List StrInfo) (j : Nat) (v : String) :
    ∀ fuel i arr spi err,
      i + fuel = arr.length →
      last_match arr = some j →
      (arr.getD j default_param).pvalue = v →
      (resolve_go infos fuel i arr spi err).arr =
        arr.take i ++ (arr.drop i).map (fun p =>
          if p.ptype = .TOKEN_STRLEN then
            (⟨.TOKEN_NUMBER, toString (find_string_length infos v)⟩ : Param)
          else p) ∧
      (resolve_go infos fuel i arr spi err).err = err := by
  intro fuel
  induction fuel with
  | zero =>
    intro i arr spi err hlen _ _
    have hi : i = arr.length := by omega
    subst hi
    simp [resolve_go, List.take_length, List.drop_length]
  | succ fuel ih =>
    intro i arr spi err hlen hlm hv
    have hi : i < arr.length := by omega
    have hget := get_opt_eq_getD arr i hi
    have hscan : scan_str_label arr = some j := by rw [scan_str_label_eq, hlm]
    by_cases hp : (arr.getD i default_param).ptype = .TOKEN_STRLEN
    · obtain ⟨hjlt, hjlab, hjpre, hjlast⟩ := last_match_spec arr j hlm
      have hij : i ≠ j := by
        intro he
        rw [he, hjlab] at hp
        exact absurd hp (by decide)
      have hstep : resolve_go infos (fuel + 1) i arr spi err =
          resolve_go infos fuel (i + 1)
            (arr.set i (⟨.TOKEN_NUMBER, toString (find_string_length infos v)⟩ : Param))
            (some j) err := by
        simp only [resolve_go, hget, hscan, if_pos hp, hv]
      have hlm2 : last_match
          (arr.set i (⟨.TOKEN_NUMBER, toString (find_string_length infos v)⟩ : Param)) =
          some j := by
        rw [last_match_set_not_label arr i _ (by rw [hp]; decide) (by intro h2; exact TokenType.noConfusion h2), hlm]
      have hv2 : ((arr.set i
          (⟨.TOKEN_NUMBER, toString (find_string_length infos v)⟩ : Param)).getD j
            default_param).pvalue = v := by
        rw [getD_set_ne arr i j _ hij, hv]
      have hlen2 : (i + 1) + fuel = (arr.set i
          (⟨.TOKEN_NUMBER, toString (find_string_length infos v)⟩ : Param)).length := by
        rw [List.length_set]; omega
      obtain ⟨ha, he⟩ := ih (i + 1) _ (some j) err hlen2 hlm2 hv2
      rw [hstep]
      refine ⟨?_, he⟩
      rw [ha, take_succ_set arr i _ hi, drop_succ_set arr i _, drop_getD_cons arr i hi]
      simp only [List.map_cons, if_pos hp, List.append_assoc, List.singleton_append]
    · have hstep : resolve_go infos (fuel + 1) i arr spi err =
          resolve_go infos fuel (i + 1) arr spi err := by
        simp only [resolve_go, hget, if_neg hp]
      obtain ⟨ha, he⟩ := ih (i + 1) arr spi err (by omega) hlm hv
      rw [hstep]
      refine ⟨?_, he⟩
      rw [ha, take_succ_getD arr i hi, drop_getD_cons arr i hi]
      simp only [List.map_cons, if_neg hp, List.append_assoc, List.singleton_append]

theorem resolve_go_none (infos : List StrInfo) :
    ∀ fuel i arr err,
      i + fuel = arr.length →
      last_match arr = none →
      (resolve_go infos fuel i arr none err).arr =
        arr.take i ++ (arr.drop i).map (fun p =>
          if p.ptype = .TOKEN_STRLEN then (⟨.TOKEN_NUMBER, "0"⟩ : Param) else p) ∧
      (resolve_go infos fuel i arr none err).err =
        err ++ warn_repeat (((arr.drop i).filter
          (fun p => p.ptype == .TOKEN_STRLEN)).length) := by
  intro fuel
  induction fuel with
  | zero =>
    intro i arr err hlen hlm
    have hi : i = arr.length := by omega
    subst hi
    simp [resolve_go, List.take_length, List.drop_length, warn_repeat,
      String.append_empty]
  | succ fuel ih =>
    intro i arr err hlen hlm
    have hi : i < arr.length := by omega
    have hget := get_opt_eq_getD arr i hi
    have hscan : scan_str_label arr = none := by rw [scan_str_label_eq, hlm]
    by_cases hp : (arr.getD i default_param).ptype = .TOKEN_STRLEN
    · have hstep : resolve_go infos (fuel + 1) i arr none err =
          resolve_go infos fuel (i + 1) (arr.set i (⟨.TOKEN_NUMBER, "0"⟩ : Param))
            none (err ++ syscall_warning) := by
        simp only [resolve_go, hget, hscan, if_pos hp, syscall_warning]
      have hlm2 : last_match (arr.set i (⟨.TOKEN_NUMBER, "0"⟩ : Param)) = none := by
        rw [last_match_set_not_label arr i _ (by rw [hp]; decide) (by decide), hlm]
      have hlen2 : (i + 1) + fuel =
          (arr.set i (⟨.TOKEN_NUMBER, "0"⟩ : Param)).length := by
        rw [List.length_set]; omega
      obtain ⟨ha, he⟩ := ih (i + 1) _ (err ++ syscall_warning) hlen2 hlm2
      rw [hstep]
      constructor
      · rw [ha, take_succ_set arr i _ hi, drop_succ_set arr i _, drop_getD_cons arr i hi]
        simp only [List.map_cons, if_pos hp, List.append_assoc, List.singleton_append]
      · rw [he, drop_succ_set arr i _, drop_getD_cons arr i hi, List.filter_cons]
        have hb : ((arr.getD i default_param).ptype == .TOKEN_STRLEN) = true :=
          beq_iff_eq.mpr hp
        rw [if_pos hb]
        simp only [List.length_cons, warn_repeat, String.append_assoc]
    · have hstep : resolve_go infos (fuel + 1) i arr none err =
          resolve_go infos fuel (i + 1) arr none err := by
        simp only [resolve_go, hget, if_neg hp]
      obtain ⟨ha, he⟩ := ih (i + 1) arr err (by omega) hlm
      rw [hstep]
      constructor
      · rw [ha, take_succ_getD arr i hi, drop_getD_cons arr i hi]
        simp only [List.map_cons, if_neg hp, List.append_assoc, List.singleton_append]
      · rw [he, drop_getD_cons arr i hi, List.filter_cons]
        have hb : ((arr.getD i default_param).ptype == .TOKEN_STRLEN) = false :=
          beq_eq_false_iff_ne.mpr hp
        rw [if_neg (show ¬((arr.getD i default_param).ptype == .TOKEN_STRLEN) = true by
          rw [hb]; exact Bool.false_ne_true)]

theorem collect_params_no_string (chain : ASTNode) :
    ∀ cnt counter infos, (chain_to_params chain).length + cnt ≤ 7 →
      (∀ p ∈ chain_to_params chain, p.ptype ≠ .TOKEN_STRING) →
      collect_params chain cnt counter infos =
        ⟨chain_to_params chain, none, "", "", counter, infos⟩ := by
  induction chain with
  | null => intro cnt counter infos _ _; rfl
  | mk t v l r nx ihl ihr ihn =>
    intro cnt counter infos hlen hns
    have hlen2 : (chain_to_params nx).length + (cnt + 1) ≤ 7 := by
      simp only [chain_to_params, List.length_cons] at hlen
      omega
    have hcnt : cnt < 7 := by
      simp only [chain_to_params, List.length_cons] at hlen
      omega
    have ht : ¬(t = .TOKEN_STRING) := by
      simpa using hns ⟨t, v⟩ (by simp [chain_to_params])
    simp only [collect_params, if_pos hcnt, if_neg ht]
    rw [ihn (cnt + 1) counter infos hlen2
      (fun p hp => hns p (by simp [chain_to_params]; exact Or.inr hp))]
    simp [chain_to_params]

/-- C3 (amended): in a syscall whose (at most 7, post-interning) parameters
contain no raw string, every `StrLen` parameter is substituted with the
recorded byte length of the LAST parameter in the call that is a label-ref
whose label starts with `str_` — regardless of whether it precedes or
follows the `StrLen` — and marshalled as that number; if no such parameter
exists, a warning is emitted per `StrLen` and `0` is substituted. -/
theorem c3_syscall_strlen (params : ASTNode) (counter : Nat) (infos : List StrInfo)
    (hne : params ≠ ASTNode.null)
    (hlen : (chain_to_params params).length ≤ 7)
    (hns : ∀ p ∈ chain_to_params params, p.ptype ≠ .TOKEN_STRING) :
    (∀ j, last_match (chain_to_params params) = some j →
      ((chain_to_params params).getD j default_param).ptype = .TOKEN_LABEL ∧
      has_str_prefix ((chain_to_params params).getD j default_param).pvalue = true ∧
      (∀ k, j < k → k < (chain_to_params params).length →
        ¬(((chain_to_params params).getD k default_param).ptype = .TOKEN_LABEL ∧
          has_str_prefix ((chain_to_params params).getD k default_param).pvalue = true)) ∧
      process_syscall_parameters params counter infos =
        ⟨marshal_params ((chain_to_params params).map (fun p =>
            if p.ptype = .TOKEN_STRLEN then
              (⟨.TOKEN_NUMBER, toString (find_string_length infos
                (((chain_to_params params).getD j default_param).pvalue))⟩ : Param)
            else p)) 0 ++ "    int 0x80\n",
          "",
          write_params params ((chain_to_params params).map (fun p =>
            if p.ptype = .TOKEN_STRLEN then
              (⟨.TOKEN_NUMBER, toString (find_string_length infos
                (((chain_to_params params).getD j default_param).pvalue))⟩ : Param)
            else p)),
          counter, infos⟩) ∧
    (last_match (chain_to_params params) = none →
      process_syscall_parameters params counter infos =
        ⟨marshal_params ((chain_to_params params).map (fun p =>
            if p.ptype = .TOKEN_STRLEN then (⟨.TOKEN_NUMBER, "0"⟩ : Param) else p)) 0 ++
            "    int 0x80\n",
          warn_repeat (((chain_to_params params).filter
            (fun p => p.ptype == .TOKEN_STRLEN)).length),
          write_params params ((chain_to_params params).map (fun p =>
            if p.ptype = .TOKEN_STRLEN then (⟨.TOKEN_NUMBER, "0"⟩ : Param) else p)),
          counter, infos⟩) := by
  cases params with
  | null => exact absurd rfl hne
  | mk t v l r nx =>
    have hcollect : collect_params (ASTNode.mk t v l r nx) 0 counter infos =
        ⟨chain_to_params (ASTNode.mk t v l r nx), none, "", "", counter, infos⟩ :=
      collect_params_no_string _ 0 counter infos (by omega) hns
    constructor
    · intro j hj
      obtain ⟨hjlt, hjlab, hjpre, hjlast⟩ := last_match_spec _ j hj
      refine ⟨hjlab, hjpre, hjlast, ?_⟩
      obtain ⟨ha, he⟩ := resolve_go_some infos j
        ((chain_to_params (ASTNode.mk t v l r nx)).getD j default_param).pvalue
        (chain_to_params (ASTNode.mk t v l r nx)).length 0
        (chain_to_params (ASTNode.mk t v l r nx)) none "" (by omega) hj rfl
      simp only [List.take_zero, List.drop_zero, List.nil_append] at ha
      simp only [process_syscall_parameters, hcollect]
      rw [ha, he]
      simp [String.empty_append, String.append_empty]
    · intro hj
      obtain ⟨ha, he⟩ := resolve_go_none infos
        (chain_to_params (ASTNode.mk t v l r nx)).length 0
        (chain_to_params (ASTNode.mk t v l r nx)) "" (by omega) hj
      simp only [List.take_zero, List.drop_zero, List.nil_append] at ha
      simp only [process_syscall_parameters, hcollect]
      rw [ha, he]
      simp [String.empty_append, String.append_empty]

theorem c3_syscall_strlen_witness :
    last_match (chain_to_params (ASTNode.mk .TOKEN_NUMBER "4" .null .null
      (.mk .TOKEN_NUMBER "1" .null .null (.mk .TOKEN_LABEL "str_0" .null .null
        (.mk .TOKEN_STRLEN "&strlen&" .null .null .null))))) = some 2 ∧
    (process_syscall_parameters (ASTNode.mk .TOKEN_NUMBER "4" .null .null
      (.mk .TOKEN_NUMBER "1" .null .null (.mk .TOKEN_LABEL "str_0" .null .null
        (.mk .TOKEN_STRLEN "&strlen&" .null .null .null))))
      0 [⟨"str_0", 11, "\"Hello World\""⟩]).out =
      "    mov eax, 4\n    mov ebx, 1\n    mov ecx, str_0\n    mov edx, 11\n    int 0x80\n" := by
  have h := (c3_syscall_strlen (ASTNode.mk .TOKEN_NUMBER "4" .null .null
    (.mk .TOKEN_NUMBER "1" .null .null (.mk .TOKEN_LABEL "str_0" .null .null
      (.mk .TOKEN_STRLEN "&strlen&" .null .null .null))))
    0 [⟨"str_0", 11, "\"Hello World\""⟩] (by decide) (by decide) (by decide)).1 2 rfl
  refine ⟨rfl, ?_⟩
  rw [h.2.2.2]
  decide

/-- C3 counterexample: with a `str_`-labelled parameter on each side of
the `StrLen` (lengths 1 before it, 2 after it), the emitted length is 2 —
the LAST label parameter's length — not the nearest earlier parameter's
length 1 the claim requires. -/
theorem c3_counterexample :
    (process_syscall_parameters straddle_params 0 straddle_infos).out =
      "    mov eax, str_0\n    mov ebx, 2\n    mov ecx, str_1\n    int 0x80\n" ∧
    (process_syscall_parameters straddle_params 0 straddle_infos).out ≠
      "    mov eax, str_0\n    mov ebx, 1\n    mov ecx, str_1\n    int 0x80\n" := by
  exact ⟨by decide, by decide⟩

theorem spec_infos_length (l : List String) : ∀ k, (spec_infos l k).length = l.length := by
  induction l with
  | nil => intro k; rfl
  | cons s rest ih => intro k; simp [spec_infos, ih (k + 1)]

theorem data_lines_append (a : List String) : ∀ b k,
    data_lines (a ++ b) k = data_lines a k ++ data_lines b (k + a.length) := by
  induction a with
  | nil => intro b k; simp [data_lines, String.empty_append]
  | cons s rest ih =>
    intro b k
    simp only [List.cons_append, List.append_eq, data_lines, ih b (k + 1), List.length_cons,
      String.append_assoc]
    have hk : k + 1 + rest.length = k + (rest.length + 1) := by omega
    rw [hk]

theorem spec_infos_append (a : List String) : ∀ b k,
    spec_infos (a ++ b) k = spec_infos a k ++ spec_infos b (k + a.length) := by
  induction a with
  | nil => intro b k; simp [spec_infos]
  | cons s rest ih =>
    intro b k
    simp only [List.cons_append, List.append_eq, spec_infos, ih b (k + 1), List.length_cons,
      List.cons_append]
    have hk : k + 1 + rest.length = k + (rest.length + 1) := by omega
    rw [hk]

theorem spec_intern_params_counter (chain : ASTNode) : ∀ k,
    (spec_intern_params chain k).1 = k + (quoted_occ_params chain).length := by
  induction chain with
  | null => intro k; rfl
  | mk t v l r nx ihl ihr ihn =>
    intro k
    by_cases hq : t = .TOKEN_STRING ∧ isQuoted v
    · simp only [spec_intern_params, quoted_occ_params, if_pos hq, ihn (k + 1),
        List.length_cons]
      omega
    · simp only [spec_intern_params, quoted_occ_params, if_neg hq, ihn k]

theorem intern_params_spec (chain : ASTNode) :
    ∀ counter infos, List.length infos = counter →
      counter + (quoted_occ_params chain).length ≤ MAX_STRINGS →
      intern_params chain counter infos =
        ⟨data_lines (quoted_occ_params chain) counter, "",
          (spec_intern_params chain counter).2,
          counter + (quoted_occ_params chain).length,
          infos ++ spec_infos (quoted_occ_params chain) counter⟩ := by
  induction chain with
  | null =>
    intro counter infos h1 h2
    simp [intern_params, quoted_occ_params, data_lines, spec_infos, spec_intern_params]
  | mk t v l r nx ihl ihr ihn =>
    intro counter infos h1 h2
    by_cases hq : t = .TOKEN_STRING ∧ isQuoted v
    · simp only [quoted_occ_params, if_pos hq, List.length_cons] at h2
      have hlt : ¬(MAX_STRINGS ≤ infos.length) := by
        simp only [MAX_STRINGS] at h2 ⊢
        omega
      simp only [intern_params, if_pos hq, add_string_info, if_neg hlt, fmt_label]
      have hlen2 : (infos ++
          [(⟨"str_" ++ toString counter, calculate_string_length v, v⟩ : StrInfo)]).length =
          counter + 1 := by
        simp [h1]
      have hrec := ihn (counter + 1)
        (infos ++ [(⟨"str_" ++ toString counter, calculate_string_length v, v⟩ : StrInfo)])
        hlen2 (by omega)
      rw [hrec]
      simp only [quoted_occ_params, if_pos hq, data_lines, spec_infos,
        spec_intern_params, InternRes.mk.injEq, List.length_cons]
      all_goals and_intros <;> first | trivial | omega | simp [List.append_assoc]
    · simp only [quoted_occ_params, if_neg hq] at h2
      simp only [intern_params, if_neg hq]
      rw [ihn counter infos h1 h2]
      simp only [quoted_occ_params, if_neg hq, spec_intern_params, InternRes.mk.injEq]
      all_goals and_intros <;> first | trivial | omega | simp [List.append_assoc]

theorem spec_intern_stmts_counter (chain : ASTNode) : ∀ k,
    (spec_intern_stmts chain k).1 = k + (quoted_occ_stmts chain).length := by
  induction chain with
  | null => intro k; simp [spec_intern_stmts, quoted_occ_stmts]
  | mk t v l r nx ihl ihr ihn =>
    intro k
    cases t
    case TOKEN_MOVE =>
      cases r
      case null => simp [spec_intern_stmts, quoted_occ_stmts, ihn k]
      case mk rt rv rl rr rnx =>
        cases rt
        case TOKEN_STRING =>
          by_cases hq : isQuoted rv
          · simp only [spec_intern_stmts, quoted_occ_stmts, if_pos hq, ihn (k + 1),
              List.length_cons]
            omega
          · simp [spec_intern_stmts, quoted_occ_stmts, if_neg hq, ihn k]
        all_goals simp [spec_intern_stmts, quoted_occ_stmts, ihn k]
    case TOKEN_SYS_CALL =>
      simp only [spec_intern_stmts, quoted_occ_stmts, spec_intern_params_counter,
        ihn, List.length_append]
      omega
    all_goals simp [spec_intern_stmts, quoted_occ_stmts, ihn k]

theorem intern_stmts_spec (chain : ASTNode) :
    ∀ counter infos, List.length infos = counter →
      counter + (quoted_occ_stmts chain).length ≤ MAX_STRINGS →
      intern_stmts chain counter infos =
        ⟨data_lines (quoted_occ_stmts chain) counter, "",
          (spec_intern_stmts chain counter).2,
          counter + (quoted_occ_stmts chain).length,
          infos ++ spec_infos (quoted_occ_stmts chain) counter⟩ := by
  induction chain with
  | null =>
    intro counter infos h1 h2
    simp [intern_stmts, quoted_occ_stmts, data_lines, spec_infos, spec_intern_stmts]
  | mk t v l r nx ihl ihr ihn =>
    intro counter infos h1 h2
    cases t
    case TOKEN_MOVE =>
      cases r
      case null =>
        simp only [quoted_occ_stmts] at h2
        simp only [intern_stmts]
        rw [ihn counter infos h1 h2]
        simp only [quoted_occ_stmts, spec_intern_stmts, InternRes.mk.injEq]
        all_goals and_intros <;> first | trivial | omega | simp [List.append_assoc]
      case mk rt rv rl rr rnx =>
        cases rt
        case TOKEN_STRING =>
          by_cases hq : isQuoted rv
          · simp only [quoted_occ_stmts, if_pos hq, List.length_cons] at h2
            have hlt : ¬(MAX_STRINGS ≤ infos.length) := by
              simp only [MAX_STRINGS] at h2 ⊢
              omega
            simp only [intern_stmts, if_pos hq, add_string_info, if_neg hlt, fmt_label]
            have hlen2 : (infos ++
                [(⟨"str_" ++ toString counter, calculate_string_length rv, rv⟩ :
                  StrInfo)]).length = counter + 1 := by
              simp [h1]
            have hrec := ihn (counter + 1)
              (infos ++ [(⟨"str_" ++ toString counter, calculate_string_length rv, rv⟩ :
                StrInfo)]) hlen2 (by omega)
            rw [hrec]
            simp only [quoted_occ_stmts, if_pos hq, data_lines, spec_infos,
              spec_intern_stmts, InternRes.mk.injEq, List.length_cons]
            all_goals and_intros <;> first | trivial | omega | simp [List.append_assoc]
          · simp only [quoted_occ_stmts, if_neg hq] at h2
            simp only [intern_stmts, if_neg hq]
            rw [ihn counter infos h1 h2]
            simp only [quoted_occ_stmts, if_neg hq, spec_intern_stmts, InternRes.mk.injEq]
            all_goals and_intros <;> first | trivial | omega | simp [List.append_assoc]
        all_goals (
          simp only [quoted_occ_stmts] at h2
          simp only [intern_stmts]
          rw [ihn counter infos h1 h2]
          simp only [quoted_occ_stmts, spec_intern_stmts, InternRes.mk.injEq]
          all_goals and_intros <;> first | trivial | omega | simp [List.append_assoc])
    case TOKEN_SYS_CALL =>
      simp only [quoted_occ_stmts, List.length_append] at h2
      have hp := intern_params_spec l counter infos h1 (by omega)
      simp only [intern_stmts]
      rw [hp]
      have hlen2 : (infos ++ spec_infos (quoted_occ_params l) counter).length =
          counter + (quoted_occ_params l).length := by
        simp [List.length_append, h1, spec_infos_length]
      have hrec := ihn (counter + (quoted_occ_params l).length)
        (infos ++ spec_infos (quoted_occ_params l) counter) hlen2 (by omega)
      rw [hrec]
      simp only [quoted_occ_stmts, spec_intern_stmts, InternRes.mk.injEq,
        data_lines_append, spec_infos_append, spec_intern_params_counter,
        List.length_append]
      all_goals and_intros <;>
        first | trivial | omega | simp [List.append_assoc] | rw [String.append_empty]
    all_goals (
      simp only [quoted_occ_stmts] at h2
      simp only [intern_stmts]
      rw [ihn counter infos h1 h2]
      simp only [quoted_occ_stmts, spec_intern_stmts, InternRes.mk.injEq]
      all_goals and_intros <;> first | trivial | omega | simp [List.append_assoc])

theorem intern_tops_spec (chain : ASTNode) :
    ∀ counter infos, List.length infos = counter →
      counter + (quoted_occ_tops chain).length ≤ MAX_STRINGS →
      intern_tops chain counter infos =
        ⟨data_lines (quoted_occ_tops chain) counter, "",
          (spec_intern_tops chain counter).2,
          counter + (quoted_occ_tops chain).length,
          infos ++ spec_infos (quoted_occ_tops chain) counter⟩ := by
  induction chain with
  | null =>
    intro counter infos h1 h2
    simp [intern_tops, quoted_occ_tops, data_lines, spec_infos, spec_intern_tops]
  | mk t v l r nx ihl ihr ihn =>
    intro counter infos h1 h2
    cases t
    case TOKEN_LABEL =>
      cases l
      case null =>
        simp only [quoted_occ_tops] at h2
        simp only [intern_tops]
        rw [ihn counter infos h1 h2]
        simp only [quoted_occ_tops, spec_intern_tops, InternRes.mk.injEq]
        all_goals and_intros <;> first | trivial | omega | simp [List.append_assoc]
      case mk bt bv bl br bnx =>
        cases bt
        case TOKEN_LBRACE =>
          simp only [quoted_occ_tops, List.length_append] at h2
          have hs := intern_stmts_spec bl counter infos h1 (by omega)
          simp only [intern_tops]
          rw [hs]
          have hlen2 : (infos ++ spec_infos (quoted_occ_stmts bl) counter).length =
              counter + (quoted_occ_stmts bl).length := by
            simp [List.length_append, h1, spec_infos_length]
          have hrec := ihn (counter + (quoted_occ_stmts bl).length)
            (infos ++ spec_infos (quoted_occ_stmts bl) counter) hlen2 (by omega)
          rw [hrec]
          simp only [quoted_occ_tops, spec_intern_tops, InternRes.mk.injEq,
            data_lines_append, spec_infos_append, spec_intern_stmts_counter,
            List.length_append]
          all_goals and_intros <;>
            first | trivial | omega | simp [List.append_assoc] | rw [String.append_empty]
        all_goals (
          simp only [quoted_occ_tops] at h2
          simp only [intern_tops]
          rw [ihn counter infos h1 h2]
          simp only [quoted_occ_tops, spec_intern_tops, InternRes.mk.injEq]
          all_goals and_intros <;> first | trivial | omega | simp [List.append_assoc])
    all_goals (
      simp only [quoted_occ_tops] at h2
      simp only [intern_tops]
      rw [ihn counter infos h1 h2]
      simp only [quoted_occ_tops, spec_intern_tops, InternRes.mk.injEq]
      all_goals and_intros <;> first | trivial | omega | simp [List.append_assoc])

theorem no_raw_params_spec (chain : ASTNode) : ∀ k,
    no_raw_quoted_params (spec_intern_params chain k).2 = true := by
  induction chain with
  | null => intro k; rfl
  | mk t v l r nx ihl ihr ihn =>
    intro k
    by_cases hq : t = .TOKEN_STRING ∧ isQuoted v
    · simp [spec_intern_params, if_pos hq, no_raw_quoted_params, ihn (k + 1)]
    · simp only [spec_intern_params, if_neg hq]
      by_cases ht : t = .TOKEN_STRING
      · subst ht
        have hv : isQuoted v = false := by
          cases hiq : isQuoted v
          · rfl
          · exact absurd ⟨rfl, hiq⟩ hq
        simp [no_raw_quoted_params, ihn k, hv]
      · simp [no_raw_quoted_params, ihn k, ht]

theorem no_raw_stmts_spec (chain : ASTNode) : ∀ k,
    no_raw_quoted_stmts (spec_intern_stmts chain k).2 = true := by
  induction chain with
  | null => intro k; rfl
  | mk t v l r nx ihl ihr ihn =>
    intro k
    cases t
    case TOKEN_MOVE =>
      cases r
      case null => simp [spec_intern_stmts, no_raw_quoted_stmts, ihn k]
      case mk rt rv rl rr rnx =>
        cases rt
        case TOKEN_STRING =>
          by_cases hq : isQuoted rv
          · simp [spec_intern_stmts, if_pos hq, no_raw_quoted_stmts, ihn (k + 1)]
          · have hv : isQuoted rv = false := by
              cases hiq : isQuoted rv
              · rfl
              · exact absurd hiq hq
            simp [spec_intern_stmts, if_neg hq, no_raw_quoted_stmts, ihn k, hv]
        all_goals simp [spec_intern_stmts, no_raw_quoted_stmts, ihn k]
    case TOKEN_SYS_CALL =>
      simp [spec_intern_stmts, no_raw_quoted_stmts, no_raw_params_spec l k, ihn]
    all_goals simp [spec_intern_stmts, no_raw_quoted_stmts, ihn k]

theorem no_raw_tops_spec (chain : ASTNode) : ∀ k,
    no_raw_quoted_tops (spec_intern_tops chain k).2 = true := by
  induction chain with
  | null => intro k; rfl
  | mk t v l r nx ihl ihr ihn =>
    intro k
    cases t
    case TOKEN_LABEL =>
      cases l
      case null => simp [spec_intern_tops, no_raw_quoted_tops, ihn k]
      case mk bt bv bl br bnx =>
        cases bt
        case TOKEN_LBRACE =>
          simp [spec_intern_tops, no_raw_quoted_tops, no_raw_stmts_spec bl k, ihn]
        all_goals simp [spec_intern_tops, no_raw_quoted_tops, ihn k]
    all_goals simp [spec_intern_tops, no_raw_quoted_tops, ihn k]

/-- C7: provided at most `MAX_STRINGS` quoted occurrences exist, the
data-section pass emits the header, one declaration line per quoted
occurrence labelled `str_0, str_1, …` strictly in scan order, records one
table entry per occurrence with its computed length, rewrites every such
`Move` source and syscall parameter in place into a label-ref carrying its
sequential label (the spec-side transformation `spec_intern_tops`), and
afterwards no raw quoted string text remains in any of those positions. -/
theorem c7_collect_strings (ast : ASTNode) (st : CGState)
    (hcap : (quoted_occ_tops ast).length ≤ MAX_STRINGS) :
    collect_strings ast st =
      ⟨"section .data\n" ++ data_lines (quoted_occ_tops ast) 0 ++ "\n", "",
        (spec_intern_tops ast 0).2,
        ⟨(quoted_occ_tops ast).length, spec_infos (quoted_occ_tops ast) 0,
          st.function_calls⟩⟩ ∧
    no_raw_quoted_tops (collect_strings ast st).ast = true := by
  have h := intern_tops_spec ast 0 [] rfl (by omega)
  constructor
  · simp only [collect_strings, h]
    simp
  · simp only [collect_strings, h]
    exact no_raw_tops_spec ast 0

theorem c7_collect_strings_witness :
    (quoted_occ_tops sample_ast).length ≤ MAX_STRINGS ∧
    collect_strings sample_ast ⟨7, [⟨"zz", 9, "zz"⟩], []⟩ =
      ⟨"section .data\n    str_0 db \"Helo2\", 0\n    str_1 db \"Hello World\", 0\n\n",
        "", (spec_intern_tops sample_ast 0).2,
        ⟨2, [⟨"str_0", 5, "\"Helo2\""⟩, ⟨"str_1", 11, "\"Hello World\""⟩], []⟩⟩ ∧
    no_raw_quoted_tops (collect_strings sample_ast ⟨7, [⟨"zz", 9, "zz"⟩], []⟩).ast = true := by
  have h := c7_collect_strings sample_ast ⟨7, [⟨"zz", 9, "zz"⟩], []⟩ (by decide)
  refine ⟨by decide, ?_, h.2⟩
  rw [h.1]
  decide

end Casm
